import Mathlib

/-
Verification development for the gTexViewer texture discovery and
extraction pipeline (src/texture_pipeline).  The Rust sources are shallowly
embedded: pure logic is translated to Lean functions, file-system access and
the external crates (imagesize, zip, gltf, texture2ddecoder) are modelled as
explicit parameters gathered in an `Env` record, and fallible Rust code
returning `anyhow::Result` becomes `Except String`.
-/

namespace GTexView

/-- A byte stream (each element is a byte value 0..255). -/
abbrev Bytes := List Nat

/-- Little-endian 32-bit read at index `i` (out-of-range bytes read as 0;
the translated code only calls this after a successful `read_exact`). -/
def le32 (b : Bytes) (i : Nat) : Nat :=
  b.getD i 0 + 2 ^ 8 * b.getD (i + 1) 0 + 2 ^ 16 * b.getD (i + 2) 0 +
    2 ^ 24 * b.getD (i + 3) 0

/-- Little-endian 64-bit read at index `i`. -/
def le64 (b : Bytes) (i : Nat) : Nat :=
  le32 b i + 2 ^ 32 * le32 b (i + 4)

/-- A filesystem path: display name, extension (`Path::extension`), and a
distinguishing id so that distinct files with equal names can be modelled. -/
structure Path where
  name : String
  ext : Option String
  id : Nat
deriving DecidableEq

/-- Model of `imagesize::ImageType` (compression sub-variants of the
GPU-compressed families are not needed by any claim). -/
inductive ImgType
  | png
  | jpeg
  | dds
  | etc2
  | eac
  | pvrtc
  | atc
  | astc
  | ktx2
  | other (n : Nat)
deriving DecidableEq

/-- One entry of a ZIP archive as exposed by the `zip` crate:
name, directory flag, declared sizes and the decompressed content. -/
structure ZipEntry where
  entryName : String
  isDir : Bool
  compressedSize : Nat
  uncompressedSize : Nat
  data : Bytes
deriving DecidableEq

/-- The closed set of hint variants (`FileHint`, `GlbHint`, `FbxHint`,
`ZipHint` from hint.rs); the `as_any().downcast_ref` calls of the sources
become constructor pattern matches. -/
inductive Hint
  | file (path : Path)
  | glb (containerPath : Path) (bufferIndex absoluteFileOffset length relativeBufferOffset : Nat)
      (textureData : Option Bytes)
  | fbx (containerPath : Path) (textureName : String) (textureIndex : Nat) (textureData : Bytes)
  | zip (containerPath : Path) (entryName : String) (entryIndex compressedSize uncompressedSize : Nat)
      (headerBytes : Option Bytes)
deriving DecidableEq

/-- EmbeddedHint::debug_info of each variant (string shape follows hint.rs). -/
def Hint.debugInfo : Hint → String
  | .file p => "File[" ++ p.name ++ "]"
  | .glb _ bufferIndex absoluteFileOffset length _ textureData =>
      "GLB[buf:" ++ toString bufferIndex ++ "]@file:" ++ toString absoluteFileOffset ++ "+"
        ++ toString length ++ (if textureData.isSome then "+data" else "")
  | .fbx _ textureName textureIndex _ =>
      "FBX[" ++ toString textureIndex ++ "]:" ++ textureName
  | .zip _ entryName entryIndex _ _ headerBytes =>
      "ZIP[" ++ toString entryIndex ++ "]:" ++ entryName
        ++ (if headerBytes.isSome then "+header" else "")

/-- EmbeddedHint::header_bytes: only `ZipHint` overrides the defaulted
`None` implementation. -/
def Hint.headerBytesOf : Hint → Option Bytes
  | .zip _ _ _ _ _ headerBytes => headerBytes
  | _ => none

/-- EmbeddedMetadata (hint.rs): one record per discovered texture. -/
structure Meta where
  name : String
  format : ImgType
  width : Nat
  height : Nat
  fileSize : Nat
  hint : Hint
  sourcePath : Path
deriving DecidableEq

/-- Where a glTF image gets its bytes: a buffer view or an external URI
(the URI is modelled already resolved against the base path). -/
inductive GlbImgSource
  | view (bufferIndex offset length : Nat)
  | uri (path : Path)
deriving DecidableEq

/-- One glTF texture (its optional name and image source). -/
structure GlbTexture where
  texName : Option String
  src : GlbImgSource
deriving DecidableEq

/-- One glTF material: the five texture slots walked by
GlbSource::extract_metadata, each an optional texture index. -/
structure GlbMaterial where
  matName : Option String
  baseColor : Option Nat
  metallicRoughness : Option Nat
  normal : Option Nat
  occlusion : Option Nat
  emissive : Option Nat
deriving DecidableEq

/-- A parsed glTF document together with the result of
`gltf::import_buffers` (`buffers`) and the raw GLB blob (`blob`), the two
buffer sources used by the path-based and reader-based extraction. -/
structure GlbDoc where
  materials : List GlbMaterial
  textures : List GlbTexture
  buffers : List Bytes
  blob : Option Bytes
deriving DecidableEq

/-- TextureData produced by the FBX low-level parser. -/
structure TextureData where
  texName : String
  relativeFilename : Option String
  content : Option Bytes
deriving DecidableEq

/-- The effect environment: the filesystem and the external crates.
`fs` returns `none` when `File::open` fails; `imageType` / `blobSize` are
`imagesize::image_type` / `imagesize::blob_size` (their reader variants
sniff the same stream contents); `zipParse` is `ZipArchive::new`;
`glbParse` is `Gltf::from_reader_without_validation` plus buffer import;
`fbxParse` is the UltraFastFbxParser run (its node-level reader is
modelled separately below). -/
structure Env where
  fs : Path → Option Bytes
  imageType : Bytes → Option ImgType
  blobSize : Bytes → Option (Nat × Nat)
  zipParse : Bytes → Option (List ZipEntry)
  glbParse : Bytes → Option GlbDoc
  fbxParse : Bytes → Except String (List TextureData)

/-- Rust `read_exact` into an `n`-byte buffer from the start of a stream. -/
def readExact (n : Nat) (b : Bytes) : Except String Bytes :=
  if b.length < n then .error "failed to fill whole buffer" else .ok (b.take n)

/-- Rust `to_lowercase` restricted to ASCII (the Unicode-specific
mappings cannot affect the ASCII extension literals it is compared to). -/
def lowerStr (s : String) : String :=
  ⟨s.data.map fun c => if 65 ≤ c.toNat ∧ c.toNat ≤ 90 then Char.ofNat (c.toNat + 32) else c⟩

/-- `ext.to_lowercase() == s` applied to an optional extension, with
`unwrap_or(false)`. -/
def lowerExtIs (p : Path) (s : String) : Bool :=
  match p.ext with
  | some e => lowerStr e == s
  | none => false

/-- List enumeration with a starting index (Rust `.enumerate()`). -/
def enumFrom : Nat → List α → List (Nat × α)
  | _, [] => []
  | i, a :: rest => (i, a) :: enumFrom (i + 1) rest

/-! ### ZipSource (sources/zip_source.rs) -/

/-- ZipSource::can_load_path: extension gate, then open the file (the `?`
propagates an open failure as an error) and test `ZipArchive::new`. -/
def zipCanLoadPath (env : Env) (p : Path) : Except String Bool :=
  if !lowerExtIs p "zip" then .ok false
  else
    match env.fs p with
    | none => .error "failed to open file"
    | some b => .ok (env.zipParse b).isSome

/-- ZIP local file header magic PK 03 04. -/
def pkLocal : Bytes := [0x50, 0x4B, 0x03, 0x04]

/-- ZIP end-of-central-directory magic PK 05 06 (empty archives). -/
def pkEnd : Bytes := [0x50, 0x4B, 0x05, 0x06]

/-- ZipSource::can_load_reader: read 4 magic bytes (`read_exact` failure
propagates) and compare against the two PK signatures. -/
def zipCanLoadReader (b : Bytes) : Except String Bool :=
  match readExact 4 b with
  | .error e => .error e
  | .ok h => .ok (h == pkLocal || h == pkEnd)

/-- Loop body of ZipSource::read_header_incrementally.  `fuel` bounds the
iteration count (the Rust loop terminates because the buffer grows each
round; callers pass ample fuel). -/
def readHeaderLoop (env : Env) (data : Bytes) (maxSize maxHeaderSize : Nat) :
    Nat → Nat → Bytes → Bytes
  | 0, _, acc => acc
  | fuel + 1, headerSize, acc =>
    if headerSize ≤ maxHeaderSize then
      let bytesToRead := headerSize - acc.length
      if bytesToRead = 0 then acc
      else
        let chunk := (data.drop acc.length).take bytesToRead
        if chunk.length = 0 then acc
        else
          let acc2 := acc ++ chunk
          if (env.blobSize acc2).isSome then acc2
          else if maxSize ≤ acc2.length then acc2
          else readHeaderLoop env data maxSize maxHeaderSize fuel
            (min (headerSize + 1024) maxHeaderSize) acc2
    else acc

/-- ZipSource::read_header_incrementally: grow a header window from 128
bytes by 1024-byte steps, capped at min(64KB, entry size), stopping early
when `imagesize::blob_size` succeeds; whatever was read is returned. -/
def readHeaderIncrementally (env : Env) (data : Bytes) (maxSize : Nat) : Option Bytes :=
  let maxHeaderSize := min 65536 maxSize
  some (readHeaderLoop env data maxSize maxHeaderSize (maxHeaderSize + 2) 128 [])

/-- The per-entry closure inside ZipSource::extract_metadata: skip
directories and empty entries, read header bytes, build a `ZipHint` and a
record with placeholder format and zero dimensions. -/
def zipProcessEntry (env : Env) (p : Path) (i : Nat) (e : ZipEntry) : Option Meta :=
  if e.isDir then none
  else
    let headerBytes :=
      if 0 < e.uncompressedSize then readHeaderIncrementally env e.data e.uncompressedSize
      else none
    let hint := Hint.zip p e.entryName i e.compressedSize e.uncompressedSize headerBytes
    if e.uncompressedSize = 0 then none
    else
      some { name := e.entryName, format := .png, width := 0, height := 0,
             fileSize := e.uncompressedSize, hint := hint, sourcePath := p }

/-- ZipSource::extract_metadata: open and parse the archive, process each
entry (failures and skips drop the entry), and fail when the resulting
list is empty. -/
def zipExtractMetadata (env : Env) (p : Path) : Except String (List Meta) :=
  match env.fs p with
  | none => .error "Failed to open ZIP file"
  | some b =>
    match env.zipParse b with
    | none => .error "Failed to read ZIP archive"
    | some entries =>
      let metadataList := (enumFrom 0 entries).filterMap fun ie => zipProcessEntry env p ie.1 ie.2
      if metadataList.isEmpty then .error "No entries found in ZIP archive"
      else .ok metadataList

/-- ZipSource::read_zip_entry: re-open the archive, fetch the entry at the
hinted index, and verify its name before returning its bytes. -/
def readZipEntry (env : Env) (containerPath : Path) (entryName : String) (entryIndex : Nat) :
    Except String Bytes :=
  match env.fs containerPath with
  | none => .error "Failed to open ZIP file for reading entry"
  | some b =>
    match env.zipParse b with
    | none => .error "Failed to read ZIP archive for entry"
    | some archive =>
      match archive.get? entryIndex with
      | none => .error "Failed to find ZIP entry at index"
      | some e =>
        if e.entryName ≠ entryName then .error "ZIP entry name mismatch"
        else .ok e.data

/-- ZipSource::load_bytes: downcast to `ZipHint`, otherwise a type-mismatch
error. -/
def zipLoadBytes (env : Env) (h : Hint) : Except String Bytes :=
  match h with
  | .zip containerPath entryName entryIndex _ _ _ => readZipEntry env containerPath entryName entryIndex
  | _ => .error ("Invalid hint type for ZIP source: " ++ h.debugInfo)

/-- ZipSource::extract_metadata_from_reader: ZIP-in-ZIP is not implemented
and returns an empty success. -/
def zipExtractFromReader (_b : Bytes) (_entryName : String) (_parentPath : Path) :
    Except String (List Meta) :=
  .ok []

/-! ### GlbSource (sources/glb_source.rs) -/

/-- The 4-byte magic of a binary glTF container. -/
def glTFMagic : Bytes := [0x67, 0x6C, 0x54, 0x46]

/-- GlbSource::can_load_path: lowercased-extension gate for glb/gltf; for a
(case-sensitive) `glb` extension additionally open the file and check the
magic (open/read failures propagate); gltf files are accepted on extension
alone. -/
def glbCanLoadPath (env : Env) (p : Path) : Except String Bool :=
  if !(lowerExtIs p "glb" || lowerExtIs p "gltf") then .ok false
  else if p.ext == some "glb" then
    match env.fs p with
    | none => .error "failed to open file"
    | some b =>
      match readExact 4 b with
      | .error e => .error e
      | .ok h => .ok (h == glTFMagic)
  else .ok true

/-- GlbSource::can_load_reader: 4-byte magic check. -/
def glbCanLoadReader (b : Bytes) : Except String Bool :=
  match readExact 4 b with
  | .error e => .error e
  | .ok h => .ok (h == glTFMagic)

/-- Rust `(json_length + 3) & !3`: round up to a 4-byte boundary. -/
def align4 (n : Nat) : Nat := (n + 3) / 4 * 4

/-- The absolute offset of the GLB BIN-chunk payload: 12-byte header,
8-byte JSON chunk header, 4-byte-aligned JSON length, 8-byte BIN chunk
header; 0 for .gltf files. Reading the 20 header bytes can fail. -/
def glbBlobOffset (p : Path) (b : Bytes) : Except String Nat :=
  if p.ext == some "glb" then
    if b.length < 20 then .error "failed to fill whole buffer"
    else .ok (12 + 8 + align4 (le32 b 12) + 8)
  else .ok 0

/-- GlbSource::extract_texture_metadata_from_texture: resolve the texture
image to a buffer view (read at most 1KB of header for sniffing, reject
zero dimensions, hint with the absolute file offset) or to an external URI
(direct-file hint). -/
def glbExtractTex (env : Env) (doc : GlbDoc) (buffers : List Bytes) (basePath : Path)
    (blobOff : Nat) (texType : String) (i : Nat) : Except String Meta :=
  match doc.textures.get? i with
  | none => .error "invalid texture index"
  | some tex =>
    match tex.src with
    | .view bufIdx off len =>
      match buffers.get? bufIdx with
      | none => .error "invalid buffer index"
      | some bufData =>
        let headerData := (bufData.drop off).take (min len 1024)
        match env.imageType headerData with
        | none => .error "failed to detect image type"
        | some fmt =>
          match env.blobSize headerData with
          | none => .error "failed to detect image size"
          | some (w, h) =>
            if w = 0 || h = 0 then .error "Invalid dimensions for GLB texture"
            else
              .ok { name := texType, format := fmt, width := w, height := h, fileSize := len,
                    hint := .glb basePath bufIdx (blobOff + off) len off none,
                    sourcePath := basePath }
    | .uri up =>
      match env.fs up with
      | none => .error "failed to open file"
      | some fb =>
        match env.imageType fb with
        | none => .error "failed to detect image type"
        | some fmt =>
          match env.blobSize fb with
          | none => .error "failed to detect image size"
          | some (w, h) =>
            if w = 0 || h = 0 then .error "Invalid dimensions for GLB external texture"
            else
              .ok { name := texType, format := fmt, width := w, height := h,
                    fileSize := fb.length, hint := .file up, sourcePath := up }

/-- Material display label (`material.name()` with an index-based
fallback; the Rust fallback formats the optional index with Debug, which
only changes the cosmetic string). -/
def materialLabel (m : GlbMaterial) (idx : Nat) : String :=
  m.matName.getD ("material_" ++ toString idx)

/-- Texture display label for the standalone pass. -/
def texLabel (t : GlbTexture) (i : Nat) : String :=
  "Standalone - " ++ t.texName.getD ("texture_" ++ toString i)

/-- Accumulator of the material walk: the processed-texture-index set
(`HashSet` modelled as an insertion-ordered list) and the collected
records, each paired with the texture index it was created for. -/
structure GlbAcc where
  processed : List Nat
  recs : List (Nat × Meta)
deriving DecidableEq

/-- One material texture slot: skip a missing or already-processed index,
record index and metadata when extraction succeeds, skip on failure. -/
def glbSlot (extract : String → Nat → Except String Meta) (label : String)
    (idxOpt : Option Nat) (st : GlbAcc) : GlbAcc :=
  match idxOpt with
  | none => st
  | some i =>
    if st.processed.contains i then st
    else
      match extract label i with
      | .ok m => ⟨st.processed ++ [i], st.recs ++ [(i, m)]⟩
      | .error _ => st

/-- The five texture slots of one material, walked in source order. -/
def glbMaterialStep (extract : String → Nat → Except String Meta) (idx : Nat)
    (m : GlbMaterial) (st : GlbAcc) : GlbAcc :=
  let mn := materialLabel m idx
  let st1 := glbSlot extract (mn ++ " - Base Color") m.baseColor st
  let st2 := glbSlot extract (mn ++ " - Metallic Roughness") m.metallicRoughness st1
  let st3 := glbSlot extract (mn ++ " - Normal") m.normal st2
  let st4 := glbSlot extract (mn ++ " - Occlusion") m.occlusion st3
  glbSlot extract (mn ++ " - Emissive") m.emissive st4

/-- Sequential walk over all materials. -/
def glbMaterialsFrom (extract : String → Nat → Except String Meta) :
    Nat → List GlbMaterial → GlbAcc → GlbAcc
  | _, [], st => st
  | idx, m :: rest, st => glbMaterialsFrom extract (idx + 1) rest (glbMaterialStep extract idx m st)

/-- The standalone pass: emit every texture whose index was not processed
by any material slot (extraction failures are skipped). -/
def glbStandaloneFrom (extract : String → Nat → Except String Meta) (processed : List Nat) :
    Nat → List GlbTexture → List (Nat × Meta)
  | _, [] => []
  | i, t :: rest =>
    let tail := glbStandaloneFrom extract processed (i + 1) rest
    if processed.contains i then tail
    else
      match extract (texLabel t i) i with
      | .ok m => (i, m) :: tail
      | .error _ => tail

/-- Material records followed by standalone records, each paired with its
texture index. -/
def glbCollect (extract : String → Nat → Except String Meta) (doc : GlbDoc) :
    List (Nat × Meta) :=
  let st := glbMaterialsFrom extract 0 doc.materials ⟨[], []⟩
  st.recs ++ glbStandaloneFrom extract st.processed 0 doc.textures

/-- GlbSource::extract_metadata: parse once, compute the absolute blob
offset, walk materials with per-texture-index deduplication, emit
standalone textures, and fail when nothing was found. -/
def glbExtractMetadata (env : Env) (p : Path) : Except String (List Meta) :=
  match env.fs p with
  | none => .error "Failed to open GLB/GLTF file"
  | some b =>
    match env.glbParse b with
    | none => .error "Failed to parse GLB/GLTF file"
    | some doc =>
      match glbBlobOffset p b with
      | .error e => .error e
      | .ok off =>
        let pairs := glbCollect (glbExtractTex env doc doc.buffers p off) doc
        if pairs.isEmpty then .error "No valid textures found in GLB/GLTF file"
        else .ok (pairs.map Prod.snd)

/-- GlbSource::read_direct_file_slice: seek to the absolute offset and read
exactly `length` bytes. -/
def readDirectFileSlice (env : Env) (glbPath : Path) (absoluteOffset length : Nat) :
    Except String Bytes :=
  match env.fs glbPath with
  | none => .error "Failed to open GLB file for direct access"
  | some b =>
    if b.length < absoluteOffset + length then .error "Failed to read texture data from GLB file"
    else .ok ((b.drop absoluteOffset).take length)

/-- GlbSource::load_bytes: a `GlbHint` is served from its materialized
bytes or by a direct offset read; a `FileHint` (external texture) is read
from disk; anything else is a type-mismatch error. -/
def glbLoadBytes (env : Env) (h : Hint) : Except String Bytes :=
  match h with
  | .glb containerPath _ absoluteFileOffset length _ textureData =>
    match textureData with
    | some d => .ok d
    | none => readDirectFileSlice env containerPath absoluteFileOffset length
  | .file p =>
    match env.fs p with
    | none => .error "Failed to read GLB external file"
    | some b => .ok b
  | _ => .error ("Invalid hint type for GLB source: " ++ h.debugInfo)

/-- GlbSource::extract_texture_metadata_from_reader: like the path-based
variant but the hint materializes the texture bytes (absolute offset 0)
and URI sources are rejected. -/
def glbExtractTexReader (env : Env) (doc : GlbDoc) (buffers : List Bytes) (parentPath : Path)
    (containerName : String) (texType : String) (i : Nat) : Except String Meta :=
  match doc.textures.get? i with
  | none => .error "invalid texture index"
  | some tex =>
    match tex.src with
    | .view bufIdx off len =>
      match buffers.get? bufIdx with
      | none => .error "invalid buffer index"
      | some bufData =>
        let headerData := (bufData.drop off).take (min len 1024)
        match env.imageType headerData with
        | none => .error "failed to detect image type"
        | some fmt =>
          match env.blobSize headerData with
          | none => .error "failed to detect image size"
          | some (w, h) =>
            if w = 0 || h = 0 then .error "Invalid dimensions for GLB texture"
            else
              .ok { name := containerName ++ " - " ++ texType, format := fmt, width := w,
                    height := h, fileSize := len,
                    hint := .glb parentPath bufIdx 0 len off (some ((bufData.drop off).take len)),
                    sourcePath := parentPath }
    | .uri _ => .error "External URI textures not supported in reader-based GLB processing"

/-- GlbSource::extract_metadata_from_reader: parse from bytes, require a
blob, walk the materials only (no standalone pass), and fail when nothing
was found. -/
def glbExtractFromReader (env : Env) (b : Bytes) (entryName : String) (parentPath : Path) :
    Except String (List Meta) :=
  match env.glbParse b with
  | none => .error "Failed to parse GLB/glTF from reader"
  | some doc =>
    match doc.blob with
    | none => .error "GLB data from reader has no blob data"
    | some blob =>
      let st := glbMaterialsFrom
        (glbExtractTexReader env doc [blob] parentPath entryName) 0 doc.materials ⟨[], []⟩
      if st.recs.isEmpty then .error "No valid textures found in GLB data from reader"
      else .ok (st.recs.map Prod.snd)

/-! ### ImageSource (sources/image_source.rs) -/

/-- ImageSource::can_load_path: open the file (the `?` propagates an open
failure) and report whether `imagesize::reader_type` recognizes it. -/
def imageCanLoadPath (env : Env) (p : Path) : Except String Bool :=
  match env.fs p with
  | none => .error "failed to open file"
  | some b => .ok (env.imageType b).isSome

/-- ImageSource::can_load_reader: the same sniffing test on a stream. -/
def imageCanLoadReader (env : Env) (b : Bytes) : Except String Bool :=
  .ok (env.imageType b).isSome

/-- ImageSource::extract_metadata: sniff format and dimensions, reject zero
dimensions, and emit exactly one direct-file record. -/
def imageExtractMetadata (env : Env) (p : Path) : Except String (List Meta) :=
  match env.fs p with
  | none => .error "failed to open file"
  | some b =>
    match env.imageType b with
    | none => .error "failed to detect image type"
    | some fmt =>
      match env.blobSize b with
      | none => .error "failed to detect image size"
      | some (w, h) =>
        if w = 0 || h = 0 then .error "Invalid dimensions for image file"
        else
          .ok [{ name := p.name, format := fmt, width := w, height := h, fileSize := b.length,
                 hint := .file p, sourcePath := p }]

/-- ImageSource::extract_metadata_from_reader: sniff the stream, reject
zero dimensions, and emit one record whose hint points at the parent path
(file size left 0, set later by the container). -/
def imageExtractFromReader (env : Env) (b : Bytes) (entryName : String) (parentPath : Path) :
    Except String (List Meta) :=
  match env.imageType b with
  | none => .error "failed to detect image type"
  | some fmt =>
    match env.blobSize b with
    | none => .error "failed to detect image size"
    | some (w, h) =>
      if w = 0 || h = 0 then .error "Invalid dimensions for image entry"
      else
        .ok [{ name := entryName, format := fmt, width := w, height := h, fileSize := 0,
               hint := .file parentPath, sourcePath := parentPath }]

/-- ImageSource::load_bytes: a `FileHint` is read from disk; anything else
is a type-mismatch error. -/
def imageLoadBytes (env : Env) (h : Hint) : Except String Bytes :=
  match h with
  | .file p =>
    match env.fs p with
    | none => .error "Failed to read image file"
    | some b => .ok b
  | _ => .error ("Invalid hint type for Image source: " ++ h.debugInfo)

/-! ### FbxSource (sources/fbx_source.rs) -/

/-- FbxSource::can_load_path: extension check only. -/
def fbxCanLoadPath (p : Path) : Except String Bool :=
  .ok (lowerExtIs p "fbx")

/-- FbxSource::can_load_reader: unconditionally false (reader-based FBX
detection is not implemented). -/
def fbxCanLoadReader (_b : Bytes) : Except String Bool :=
  .ok false

/-- FbxSource::convert_texture_to_metadata: require content, sniff format
and dimensions, reject zero dimensions, and store the content bytes in the
hint. -/
def fbxConvertTexture (env : Env) (td : TextureData) (i : Nat) (basePath : Path) :
    Except String Meta :=
  match td.content with
  | none => .error "FBX texture has no content"
  | some content =>
    match env.imageType content with
    | none => .error "failed to detect image type"
    | some fmt =>
      match env.blobSize content with
      | none => .error "failed to detect image size"
      | some (w, h) =>
        if w = 0 || h = 0 then .error "Invalid dimensions for FBX texture"
        else
          .ok { name := td.texName, format := fmt, width := w, height := h,
                fileSize := content.length, hint := .fbx basePath td.texName i content,
                sourcePath := basePath }

/-- Rust `collect::<Result<Vec<_>, _>>()`: the first error aborts. -/
def collectResults : List (Except String α) → Except String (List α)
  | [] => .ok []
  | .error e :: _ => .error e
  | .ok a :: rest =>
    match collectResults rest with
    | .error e => .error e
    | .ok l => .ok (a :: l)

/-- Association-list update used by ensure_unique_names. -/
def bumpCounter : List (String × Nat) → String → List (String × Nat)
  | [], _ => []
  | (k, v) :: rest, key => if k = key then (k, v + 1) :: rest else (k, v) :: bumpCounter rest key

/-- FbxSource::ensure_unique_names: a first occurrence keeps its name and
seeds a counter keyed by that name; each later occurrence of the same
original name gets a numeric suffix in occurrence order. -/
def renameLoop : List (String × Nat) → List Meta → List Meta
  | _, [] => []
  | counters, m :: rest =>
    match counters.lookup m.name with
    | some c =>
      { m with name := m.name ++ "_" ++ toString (c + 1) } :: renameLoop (bumpCounter counters m.name) rest
    | none => m :: renameLoop ((m.name, 0) :: counters) rest

/-- FbxSource::extract_metadata: run the low-level parser, convert every
texture that has embedded content (a conversion error aborts, matching the
short-circuiting `collect`), make names unique, and return the list —
empty is a success here. -/
def fbxExtractMetadata (env : Env) (p : Path) : Except String (List Meta) :=
  match env.fs p with
  | none => .error "failed to open file"
  | some b =>
    match env.fbxParse b with
    | .error e => .error e
    | .ok textures =>
      match collectResults ((enumFrom 0 textures).filterMap fun it =>
          if it.2.content.isSome then some (fbxConvertTexture env it.2 it.1 p) else none) with
      | .error e => .error e
      | .ok results => .ok (renameLoop [] results)

/-- FbxSource::load_bytes: an `FbxHint` returns its materialized bytes;
anything else is a type-mismatch error. -/
def fbxLoadBytes (h : Hint) : Except String Bytes :=
  match h with
  | .fbx _ _ _ textureData => .ok textureData
  | _ => .error ("Invalid hint type for FBX source: " ++ h.debugInfo)

/-- FbxSource::extract_metadata_from_reader: not implemented, empty
success. -/
def fbxExtractFromReader (_b : Bytes) (_entryName : String) (_parentPath : Path) :
    Except String (List Meta) :=
  .ok []

/-! ### SourceRegistry and Pipeline (registry.rs, mod.rs) -/

/-- The four registered sources. -/
inductive SourceId
  | glb
  | fbx
  | zip
  | image
deriving DecidableEq

/-- Source::can_load_path dispatch. -/
def canLoadPathE (env : Env) : SourceId → Path → Except String Bool
  | .glb, p => glbCanLoadPath env p
  | .fbx, p => fbxCanLoadPath p
  | .zip, p => zipCanLoadPath env p
  | .image, p => imageCanLoadPath env p

/-- `source.can_load_path(path).unwrap_or(false)` as used by the registry. -/
def canLoadPathB (env : Env) (s : SourceId) (p : Path) : Bool :=
  match canLoadPathE env s p with
  | .ok b => b
  | .error _ => false

/-- Source::can_load_reader dispatch. -/
def canLoadReaderE (env : Env) : SourceId → Bytes → Except String Bool
  | .glb, b => glbCanLoadReader b
  | .fbx, b => fbxCanLoadReader b
  | .zip, b => zipCanLoadReader b
  | .image, b => imageCanLoadReader env b

/-- `source.can_load_reader(reader).unwrap_or(false)`. -/
def canLoadReaderB (env : Env) (s : SourceId) (b : Bytes) : Bool :=
  match canLoadReaderE env s b with
  | .ok v => v
  | .error _ => false

/-- Pipeline::new registration order: container sources (GLB, FBX, ZIP)
ahead of the generic image source. -/
def registryOrder : List SourceId := [.glb, .fbx, .zip, .image]

/-- SourceRegistry::find_source: first acceptor in registration order. -/
def findSource (env : Env) (p : Path) : Option SourceId :=
  registryOrder.find? fun s => canLoadPathB env s p

/-- SourceRegistry::find_source_for_reader: first acceptor in registration
order against a stream. -/
def findSourceForReader (env : Env) (b : Bytes) : Option SourceId :=
  registryOrder.find? fun s => canLoadReaderB env s b

/-- The per-path source selection of
SourceRegistry::extract_all_metadata_parallel uses rayon `find_any`, which
may return any matching element of the parallel iterator; this is the set
of sources it may select for a path. -/
def findAnyCandidates (env : Env) (p : Path) : List SourceId :=
  registryOrder.filter fun s => canLoadPathB env s p

/-- Source::extract_metadata dispatch. -/
def sourceExtractMetadata (env : Env) : SourceId → Path → Except String (List Meta)
  | .glb, p => glbExtractMetadata env p
  | .fbx, p => fbxExtractMetadata env p
  | .zip, p => zipExtractMetadata env p
  | .image, p => imageExtractMetadata env p

/-- Source::load_bytes dispatch. -/
def sourceLoadBytes (env : Env) : SourceId → Hint → Except String Bytes
  | .glb, h => glbLoadBytes env h
  | .fbx, h => fbxLoadBytes h
  | .zip, h => zipLoadBytes env h
  | .image, h => imageLoadBytes env h

/-- Source::extract_metadata_from_reader dispatch. -/
def sourceExtractFromReader (env : Env) :
    SourceId → Bytes → String → Path → Except String (List Meta)
  | .glb, b, entryName, parentPath => glbExtractFromReader env b entryName parentPath
  | .fbx, b, entryName, parentPath => fbxExtractFromReader b entryName parentPath
  | .zip, b, entryName, parentPath => zipExtractFromReader b entryName parentPath
  | .image, b, entryName, parentPath => imageExtractFromReader env b entryName parentPath

/-- Pipeline::extract_metadata: single-path convenience; no source found is
an empty success. -/
def pipelineExtractMetadata (env : Env) (p : Path) : Except String (List Meta) :=
  match findSource env p with
  | some s => sourceExtractMetadata env s p
  | none => .ok []

/-- The queue-draining loop of Pipeline::extract_all_metadata_recursive.
`fuel` bounds the number of pops (the Rust loop runs until the queue is
empty; callers pass ample fuel for the inputs they evaluate). A popped
record with header bytes is finalized as a direct image when
`imagesize::image_type` succeeds (dimensions updated only when
`blob_size` also succeeds), else expanded as a container when a
reader-based source recognizes the header, else dropped; a record without
header bytes is emitted directly. -/
def recursiveLoop (env : Env) : Nat → List Meta → List Meta → List Meta
  | 0, _, acc => acc
  | _ + 1, [], acc => acc
  | fuel + 1, m :: rest, acc =>
    match m.hint.headerBytesOf with
    | some header =>
      match env.imageType header with
      | some fmt =>
        let m2 := { m with format := fmt }
        let m3 :=
          match env.blobSize header with
          | some (w, h) => { m2 with width := w, height := h }
          | none => m2
        recursiveLoop env fuel rest (acc ++ [m3])
      | none =>
        match findSourceForReader env header with
        | some cSid =>
          match findSource env m.sourcePath with
          | some pSid =>
            match sourceLoadBytes env pSid m.hint with
            | .ok containerData =>
              match sourceExtractFromReader env cSid containerData m.name m.sourcePath with
              | .ok expanded => recursiveLoop env fuel (rest ++ expanded) acc
              | .error _ => recursiveLoop env fuel rest acc
            | .error _ => recursiveLoop env fuel rest acc
          | none => recursiveLoop env fuel rest acc
        | none => recursiveLoop env fuel rest acc
    | none => recursiveLoop env fuel rest (acc ++ [m])

/-- Seeding of Pipeline::extract_all_metadata_recursive: each path's
top-level records enter the queue; a path without a source or whose
extraction fails is skipped with a warning. -/
def recursiveSeed (env : Env) : List Path → List Meta
  | [] => []
  | p :: rest =>
    (match findSource env p with
     | some s =>
       match sourceExtractMetadata env s p with
       | .ok metadataList => metadataList
       | .error _ => []
     | none => []) ++ recursiveSeed env rest

/-- Pipeline::extract_all_metadata_recursive. -/
def extractAllMetadataRecursive (env : Env) (fuel : Nat) (paths : List Path) : List Meta :=
  recursiveLoop env fuel (recursiveSeed env paths) []

/-- Pipeline::load_bytes: materialized GLB/FBX hint bytes are returned with
no I/O, otherwise the owning source (found by path) serves the hint. -/
def pipelineLoadBytes (env : Env) (m : Meta) : Except String Bytes :=
  match m.hint with
  | .glb _ _ _ _ _ (some textureData) => .ok textureData
  | .fbx _ _ _ textureData => .ok textureData
  | _ =>
    match findSource env m.sourcePath with
    | some s => sourceLoadBytes env s m.hint
    | none => .error "No source found for file"

/-! ### UltraFastFbxParser::read_fbx_node (sources/ultra_fast_fbx_parser.rs) -/

/-- The four header fields of an FBX node record. -/
structure FbxHdr where
  endOffset : Nat
  numProperties : Nat
  propertyListLen : Nat
  nameLen : Nat
deriving DecidableEq

/-- Header width chosen by read_fbx_node: 25 bytes for version 7500 and
above, 13 bytes below. -/
def fbxHeaderWidth (version : Nat) : Nat :=
  if version ≥ 7500 then 25 else 13

/-- Field extraction of read_fbx_node: 64-bit little-endian fields plus a
final name-length byte at offset 24 for version 7500 and above, 32-bit
fields plus a final name-length byte at offset 12 below. -/
def readFbxHeaderFields (version : Nat) (s : Bytes) (pos : Nat) : FbxHdr :=
  if version ≥ 7500 then
    ⟨le64 s pos, le64 s (pos + 8), le64 s (pos + 16), s.getD (pos + 24) 0⟩
  else
    ⟨le32 s pos, le32 s (pos + 4), le32 s (pos + 8), s.getD (pos + 12) 0⟩

/-- A parsed FBX node record (UTF-8 validation of the name is elided; the
name is kept as raw bytes). -/
structure FbxNodeRec where
  nodeName : Bytes
  propertiesData : Bytes
  endOffset : Nat
deriving DecidableEq

/-- UltraFastFbxParser::read_fbx_node over the whole file `s` at position
`pos`: a failed header read is end-of-file (`Ok(None)`); a zero end-offset
together with a zero name length is the null/end marker (`Ok(None)`);
implausible header values are an error; then the name bytes and the raw
property block are read (failures propagate). Returns the node and the new
stream position. -/
def readFbxNode (version fileSize : Nat) (s : Bytes) (pos : Nat) :
    Except String (Option FbxNodeRec × Nat) :=
  let w := fbxHeaderWidth version
  if s.length < pos + w then .ok (none, pos)
  else
    let h := readFbxHeaderFields version s pos
    if h.endOffset = 0 ∧ h.nameLen = 0 then .ok (none, pos + w)
    else if 100 < h.nameLen ∨ 2 ^ 30 < h.propertyListLen ∨ fileSize * 2 < h.endOffset then
      .error "Invalid node header values"
    else
      let p1 := pos + w
      if s.length < p1 + h.nameLen then .error "failed to fill whole buffer"
      else
        let p2 := p1 + h.nameLen
        if s.length < p2 + h.propertyListLen then .error "failed to fill whole buffer"
        else
          .ok (some ⟨(s.drop p1).take h.nameLen, (s.drop p2).take h.propertyListLen, h.endOffset⟩,
            p2 + h.propertyListLen)

/-- Little-endian read of `k` bytes, written the way the spec describes the
node header: a sequence of fixed-width little-endian fields. -/
def leN : Nat → Bytes → Nat → Nat
  | 0, _, _ => 0
  | k + 1, s, i => s.getD i 0 + 256 * leN k s (i + 1)

/-- Node-header layout as the spec states it: below version 7500 the header
is 13 bytes with 32-bit (4-byte) end-offset, property count and
property-block length; at or above 7500 it is 25 bytes with 64-bit
(8-byte) fields; in both layouts the name length is the final single
byte. -/
def specFieldWidth (version : Nat) : Nat :=
  if version < 7500 then 4 else 8

/-- Spec-side header width: three fixed-width fields plus one byte. -/
def specFbxHeaderWidth (version : Nat) : Nat :=
  3 * specFieldWidth version + 1

/-- Spec-side field extraction: three consecutive little-endian fields of
`specFieldWidth` bytes, then the name-length byte. -/
def specFbxHeaderFields (version : Nat) (s : Bytes) (pos : Nat) : FbxHdr :=
  let fw := specFieldWidth version
  ⟨leN fw s pos, leN fw s (pos + fw), leN fw s (pos + 2 * fw), s.getD (pos + 3 * fw) 0⟩

/-! ### CompressedFormat (parsers/compressed.rs) -/

/-- Raw image data handed to a parser (`LoadedImageData`). -/
structure LoadedImageData where
  name : String
  data : Bytes
  fileSize : Nat
  sourceFile : Path
  format : ImgType
  width : Nat
  height : Nat
deriving DecidableEq

/-- Outcome of running Rust code that may panic: a normal value, a normal
error, or a panic. `catch_unwind` is the only construct that can observe
the `panicked` outcome. -/
inductive PanicResult (α : Type)
  | ok (a : α)
  | err (msg : String)
  | panicked
deriving DecidableEq

/-- CompressedFormat::can_parse: the GPU block-compressed format families. -/
def compressedCanParse (d : LoadedImageData) : Bool :=
  match d.format with
  | .dds | .etc2 | .eac | .pvrtc | .atc | .astc => true
  | _ => false

/-- BGRA-order u32 pixel to RGBA bytes (texture2ddecoder output order for
the DDS/ETC2/EAC/PVRTC families). -/
def bgraToRgbaPixel (px : Nat) : Bytes :=
  [px / 2 ^ 16 % 256, px / 2 ^ 8 % 256, px % 256, px / 2 ^ 24 % 256]

/-- RGBA-order u32 pixel to bytes (the remaining formats). -/
def rgbaPixel (px : Nat) : Bytes :=
  [px % 256, px / 2 ^ 8 % 256, px / 2 ^ 16 % 256, px / 2 ^ 24 % 256]

/-- The per-pixel channel normalization at the end of decompress_texture. -/
def pixelsToBytes (fmt : ImgType) (buf : List Nat) : Bytes :=
  buf.flatMap fun px =>
    match fmt with
    | .pvrtc | .etc2 | .eac | .dds => bgraToRgbaPixel px
    | _ => rgbaPixel px

/-- CompressedFormat::decompress_texture with the per-scheme block decoders
abstracted as one function from format, data and dimensions to a u32
pixel buffer plus color-space label — a decoder may panic. Dimensions are
validated (nonzero, at most 16384 per axis) before decoding, unsupported
formats are rejected, and a decoder panic propagates (nothing catches it
here). -/
def decompressTexture (decoder : ImgType → Bytes → Nat → Nat → PanicResult (List Nat × String))
    (d : LoadedImageData) : PanicResult (Bytes × String) :=
  if d.width = 0 || d.height = 0 || 16384 < d.width || 16384 < d.height then
    .err "Invalid texture dimensions"
  else if !compressedCanParse d then .err "Unsupported compressed format"
  else
    match decoder d.format d.data d.width d.height with
    | .panicked => .panicked
    | .err e => .err e
    | .ok (buf, colorSpace) => .ok (pixelsToBytes d.format buf, colorSpace)

/-- Decoded image as handed to macroquad. -/
structure MqImage where
  width : Nat
  height : Nat
  bytes : Bytes
deriving DecidableEq

/-- Processed image information (`ImageInfo`). -/
structure ImageInfo where
  width : Nat
  height : Nat
  fileSize : Nat
  colorSpace : String
deriving DecidableEq

/-- CompressedFormat::parse: run decompress_texture under
`std::panic::catch_unwind`; a caught panic becomes an ordinary decode
error, a decode error propagates with `?`, a success is packed into the
image and info records. -/
def compressedParse (decoder : ImgType → Bytes → Nat → Nat → PanicResult (List Nat × String))
    (d : LoadedImageData) : PanicResult (MqImage × ImageInfo) :=
  match decompressTexture decoder d with
  | .panicked => .err "Compressed texture decoder panicked"
  | .err e => .err e
  | .ok (rgbaData, colorSpace) =>
    .ok (⟨d.width, d.height, rgbaData⟩, ⟨d.width, d.height, d.fileSize, colorSpace⟩)

/-! ### Concrete inputs used to instantiate the theorems -/

/-- An environment in which nothing can be opened or recognized. -/
def envBase : Env :=
  { fs := fun _ => none, imageType := fun _ => none, blobSize := fun _ => none,
    zipParse := fun _ => none, glbParse := fun _ => none,
    fbxParse := fun _ => .error "parse error" }

/-- A .zip path. -/
def pZipA : Path := ⟨"a.zip", some "zip", 1⟩

/-- A .gltf path. -/
def pGltfA : Path := ⟨"a.gltf", some "gltf", 2⟩

/-- A .png path. -/
def pImgA : Path := ⟨"i.png", some "png", 3⟩

/-- A .fbx path. -/
def pFbxA : Path := ⟨"m.fbx", some "fbx", 4⟩

/-- Readable empty ZIP archive and readable glTF document with no
textures. -/
def envEmptyContainers : Env :=
  { envBase with
    fs := fun p => if p.id = 1 ∨ p.id = 2 ∨ p.id = 4 then some [1] else none,
    zipParse := fun _ => some [],
    glbParse := fun _ => some ⟨[], [], [], none⟩,
    fbxParse := fun _ => .ok [] }

/-- One readable image file recognized by the sniffer. -/
def envOneImage : Env :=
  { envBase with
    fs := fun p => if p = pImgA then some [9] else none,
    imageType := fun _ => some .png,
    blobSize := fun _ => some (2, 3) }

/-- A readable .zip file that is a valid (empty) archive and whose bytes
the image sniffer also recognizes. -/
def envZipAlsoImage : Env :=
  { envBase with
    fs := fun p => if p = pZipA then some [9] else none,
    imageType := fun _ => some .png,
    zipParse := fun _ => some [] }

/-- The 8-byte PNG signature. -/
def pngSig : Bytes := [0x89, 0x50, 0x4E, 0x47, 0x0D, 0x0A, 0x1A, 0x0A]

/-- A 130-byte ZIP entry payload: PNG signature followed by filler, so
that type detection can succeed while size detection fails. -/
def entryDataC4 : Bytes := pngSig ++ List.replicate 122 7

/-- The .zip path of the recursive-expansion run. -/
def pZipC4 : Path := ⟨"c.zip", some "zip", 40⟩

/-- One ZIP archive with a single 130-byte entry whose header passes
`image_type` (PNG signature) but fails `blob_size`. -/
def envZipBadPng : Env :=
  { envBase with
    fs := fun p => if p = pZipC4 then some [9, 9] else none,
    imageType := fun b => if b.take 8 == pngSig then some .png else none,
    zipParse := fun b => if b == [9, 9] then some [⟨"a.png", false, 60, 130, entryDataC4⟩] else none }

/-- Bytes of a minimal binary glTF file head: magic plus version. -/
def glbHeadBytes : Bytes := glTFMagic ++ [2, 0, 0, 0]

/-- A .glb path. -/
def pGlbB : Path := ⟨"b.glb", some "glb", 6⟩

/-- One readable .glb file. -/
def envGlbFile : Env :=
  { envBase with fs := fun p => if p.id = 6 then some glbHeadBytes else none }

/-- A single ZIP archive entry used for the load_bytes name check. -/
def zipEntX : ZipEntry := ⟨"x.png", false, 3, 2, [1, 2]⟩

/-- The .zip path owning that entry. -/
def pZipW : Path := ⟨"w.zip", some "zip", 7⟩

/-- Environment exposing the one-entry archive. -/
def envZipW : Env :=
  { envBase with
    fs := fun p => if p = pZipW then some [5] else none,
    zipParse := fun b => if b == [5] then some [zipEntX] else none }

/-- The record the recursive expansion emits for that entry: type detected
as PNG, dimensions still zero because size detection failed. -/
def metaC4Rec : Meta :=
  { name := "a.png", format := .png, width := 0, height := 0, fileSize := 130,
    hint := .zip pZipC4 "a.png" 0 60 130 (some entryDataC4), sourcePath := pZipC4 }

/-- Invariant of the material walk: the collected records are tagged
exactly by the processed texture indices, each processed index appears
once, and every processed index is a valid texture index. -/
def GlbInv (n : Nat) (st : GlbAcc) : Prop :=
  st.recs.map Prod.fst = st.processed ∧ st.processed.Nodup ∧ ∀ j ∈ st.processed, j < n

/-- A glTF document with one material referencing texture 0 from two slots
(base color and emissive) and a second texture referenced by no
material. -/
def docC8 : GlbDoc :=
  { materials := [{ matName := some "M", baseColor := some 0, metallicRoughness := none,
                    normal := none, occlusion := none, emissive := some 0 }],
    textures := [⟨none, .view 0 0 4⟩, ⟨some "T1", .view 0 4 4⟩],
    buffers := [[1, 2, 3, 4, 5, 6, 7, 8]],
    blob := none }

/-- The .gltf path owning that document. -/
def pC8 : Path := ⟨"m.gltf", some "gltf", 8⟩

/-- An environment exposing that document, with a sniffer that resolves
every header to a 2x2 PNG. -/
def envC8 : Env :=
  { envBase with
    fs := fun p => if p.id = 8 then some [3] else none,
    glbParse := fun b => if b == [3] then some docC8 else none,
    imageType := fun _ => some .png,
    blobSize := fun _ => some (2, 2) }

/-- Width and height both zero, or both positive — the metadata dimension
invariant stated by the spec. -/
def bothZeroOrPos (m : Meta) : Prop :=
  (m.width = 0 ∧ m.height = 0) ∨ (0 < m.width ∧ 0 < m.height)

instance (m : Meta) : Decidable (bothZeroOrPos m) := by
  unfold bothZeroOrPos
  infer_instance

/-! ### Theorems -/

/-- An entry that is a directory or empty is skipped by the per-entry
closure of ZipSource::extract_metadata. -/
theorem zipProcessEntry_skip (env : Env) (p : Path) (i : Nat) (e : ZipEntry)
    (h : e.isDir = true ∨ e.uncompressedSize = 0) : zipProcessEntry env p i e = none := by
  rcases h with h | h <;> simp [zipProcessEntry, h]

/-- A ZIP archive whose entries are all directories or empty produces no
records. -/
theorem zip_entries_all_skipped (env : Env) (p : Path) :
    ∀ (k : Nat) (entries : List ZipEntry),
      (∀ e ∈ entries, e.isDir = true ∨ e.uncompressedSize = 0) →
      ((enumFrom k entries).filterMap fun ie => zipProcessEntry env p ie.1 ie.2) = [] := by
  intro k entries
  induction entries generalizing k with
  | nil => intro _; rfl
  | cons e rest ih =>
    intro h
    simp only [enumFrom, List.filterMap_cons]
    rw [zipProcessEntry_skip env p k e (h e (List.mem_cons_self e rest))]
    exact ih (k + 1) fun e' he' => h e' (List.mem_cons_of_mem e he')

/-- Textures without embedded content are all filtered out before
conversion in FbxSource::extract_metadata. -/
theorem fbx_no_content_all_skipped (env : Env) (p : Path) :
    ∀ (k : Nat) (tds : List TextureData), (∀ td ∈ tds, td.content = none) →
      ((enumFrom k tds).filterMap fun it =>
        if it.2.content.isSome then some (fbxConvertTexture env it.2 it.1 p) else none) = [] := by
  intro k tds
  induction tds generalizing k with
  | nil => intro _; rfl
  | cons td rest ih =>
    intro h
    simp only [enumFrom, List.filterMap_cons]
    have hc : td.content = none := h td (List.mem_cons_self td rest)
    simp only [hc, Option.isSome_none, Bool.false_eq_true, if_false]
    exact ih (k + 1) fun td' htd' => h td' (List.mem_cons_of_mem td htd')

/-- C1 (amended): a container that yields no records is not an empty
success for every Source. ZipSource::extract_metadata returns an error
when every entry was skipped (directories/empty entries), and
GlbSource::extract_metadata returns an error when the document has no
materials and no textures; only FbxSource::extract_metadata returns a
successful empty list when the parser reports no content-bearing
textures. -/
theorem c1_empty_container_amended (env : Env) (p : Path) (b : Bytes)
    (hfs : env.fs p = some b) :
    (∀ entries, env.zipParse b = some entries →
      (∀ e ∈ entries, e.isDir = true ∨ e.uncompressedSize = 0) →
      zipExtractMetadata env p = .error "No entries found in ZIP archive") ∧
    (∀ doc, env.glbParse b = some doc → p.ext ≠ some "glb" →
      doc.materials = [] → doc.textures = [] →
      glbExtractMetadata env p = .error "No valid textures found in GLB/GLTF file") ∧
    (∀ tds, env.fbxParse b = .ok tds → (∀ td ∈ tds, td.content = none) →
      fbxExtractMetadata env p = .ok []) := by
  refine ⟨?_, ?_, ?_⟩
  · intro entries hz hskip
    simp only [zipExtractMetadata, hfs, hz, zip_entries_all_skipped env p 0 entries hskip]
    rfl
  · intro doc hg hext hm ht
    have hb : (p.ext == some "glb") = false := beq_eq_false_iff_ne.mpr hext
    obtain ⟨mats, texs, bufs, blob⟩ := doc
    simp only at hm ht
    subst hm; subst ht
    simp [glbExtractMetadata, hfs, hg, glbBlobOffset, hb, glbCollect, glbMaterialsFrom,
      glbStandaloneFrom]
  · intro tds hf hnone
    simp only [fbxExtractMetadata, hfs, hf, fbx_no_content_all_skipped env p 0 tds hnone]
    rfl

/-- C1 (witness): concrete empty containers — the empty ZIP archive and
the textureless glTF document yield errors, the FBX file with no
content-bearing textures yields an empty success. -/
theorem c1_empty_container_amended_witness :
    zipExtractMetadata envEmptyContainers pZipA = .error "No entries found in ZIP archive" ∧
    glbExtractMetadata envEmptyContainers pGltfA = .error "No valid textures found in GLB/GLTF file" ∧
    fbxExtractMetadata envEmptyContainers pFbxA = .ok [] := by
  refine ⟨?_, ?_, ?_⟩
  · exact (c1_empty_container_amended envEmptyContainers pZipA [1] (by decide)).1 []
      (by decide) (by intro e he; cases he)
  · exact (c1_empty_container_amended envEmptyContainers pGltfA [1] (by decide)).2.1
      ⟨[], [], [], none⟩ (by decide) (by decide) rfl rfl
  · exact (c1_empty_container_amended envEmptyContainers pFbxA [1] (by decide)).2.2 []
      rfl (by intro td htd; cases htd)

/-- C1 (counterexample): on a readable, valid but empty ZIP archive and on
a readable glTF document containing no textures, extract_metadata returns
an error, not the successful empty list the claim requires. -/
theorem c1_empty_container_cex :
    zipExtractMetadata envEmptyContainers pZipA = .error "No entries found in ZIP archive" ∧
    glbExtractMetadata envEmptyContainers pGltfA = .error "No valid textures found in GLB/GLTF file" := by
  exact ⟨rfl, rfl⟩

/-- C2 (amended): load_bytes dispatches on the hint's concrete type, not
on the Source that produced it. A GlbHint, FbxHint or ZipHint routed to a
Source that does not handle that hint type fails with a type-mismatch
error and returns no bytes; but a FileHint — produced by ImageSource, and
by GlbSource for external textures — is accepted by both ImageSource and
GlbSource. -/
theorem c2_cross_source_hint_amended (env : Env) (p cp : Path) (n1 n2 n3 n4 : Nat)
    (td : Option Bytes) (tn en : String) (db : Bytes) (hb : Option Bytes) :
    (∃ e, zipLoadBytes env (.file p) = .error e) ∧
    (∃ e, zipLoadBytes env (.glb cp n1 n2 n3 n4 td) = .error e) ∧
    (∃ e, zipLoadBytes env (.fbx cp tn n1 db) = .error e) ∧
    (∃ e, fbxLoadBytes (.file p) = .error e) ∧
    (∃ e, fbxLoadBytes (.glb cp n1 n2 n3 n4 td) = .error e) ∧
    (∃ e, fbxLoadBytes (.zip cp en n1 n2 n3 hb) = .error e) ∧
    (∃ e, glbLoadBytes env (.fbx cp tn n1 db) = .error e) ∧
    (∃ e, glbLoadBytes env (.zip cp en n1 n2 n3 hb) = .error e) ∧
    (∃ e, imageLoadBytes env (.glb cp n1 n2 n3 n4 td) = .error e) ∧
    (∃ e, imageLoadBytes env (.fbx cp tn n1 db) = .error e) ∧
    (∃ e, imageLoadBytes env (.zip cp en n1 n2 n3 hb) = .error e) :=
  ⟨⟨_, rfl⟩, ⟨_, rfl⟩, ⟨_, rfl⟩, ⟨_, rfl⟩, ⟨_, rfl⟩, ⟨_, rfl⟩, ⟨_, rfl⟩, ⟨_, rfl⟩,
   ⟨_, rfl⟩, ⟨_, rfl⟩, ⟨_, rfl⟩⟩

/-- C2 (counterexample): the FileHint produced by ImageSource for a plain
image, routed through GlbSource::load_bytes, successfully returns the
file bytes instead of failing with a type-mismatch error. -/
theorem c2_cross_source_hint_cex :
    imageExtractMetadata envOneImage pImgA =
      .ok [{ name := "i.png", format := .png, width := 2, height := 3, fileSize := 1,
             hint := .file pImgA, sourcePath := pImgA }] ∧
    glbLoadBytes envOneImage (.file pImgA) = .ok [9] := by
  exact ⟨rfl, rfl⟩

/-- C3 (amended): the sequential SourceRegistry::find_source checks the
container Sources (GLB, FBX, ZIP) ahead of the generic image Source, so
whenever any container Source accepts a path the lookup returns a
non-image Source; the parallel batch variant instead selects its Source
with rayon find_any, which may return any accepting Source, so the
container priority is not guaranteed there. -/
theorem c3_priority_amended (env : Env) (p : Path)
    (h : canLoadPathB env .glb p = true ∨ canLoadPathB env .fbx p = true ∨
      canLoadPathB env .zip p = true) :
    findSource env p ≠ none ∧ findSource env p ≠ some SourceId.image := by
  unfold findSource registryOrder
  rcases h with h | h | h <;>
    cases hg : canLoadPathB env SourceId.glb p <;>
    cases hf : canLoadPathB env SourceId.fbx p <;>
    cases hz : canLoadPathB env SourceId.zip p <;>
    simp_all [List.find?]

/-- C3 (witness): a valid .zip file whose bytes the image sniffer also
recognizes is accepted by both ZipSource and ImageSource, and the
sequential lookup resolves it to a non-image Source. -/
theorem c3_priority_amended_witness :
    canLoadPathB envZipAlsoImage SourceId.zip pZipA = true ∧
    canLoadPathB envZipAlsoImage SourceId.image pZipA = true ∧
    findSource envZipAlsoImage pZipA ≠ none ∧
    findSource envZipAlsoImage pZipA ≠ some SourceId.image :=
  ⟨by decide, by decide,
   (c3_priority_amended envZipAlsoImage pZipA (Or.inr (Or.inr (by decide)))).1,
   (c3_priority_amended envZipAlsoImage pZipA (Or.inr (Or.inr (by decide)))).2⟩

/-- C3 (counterexample): for a path accepted by both ZipSource and
ImageSource, the image Source is among the Sources rayon find_any may
select in extract_all_metadata_parallel, so the parallel batch variant
does not always hand the path to a container Source. -/
theorem c3_parallel_priority_cex :
    SourceId.image ∈ findAnyCandidates envZipAlsoImage pZipA ∧
    canLoadPathB envZipAlsoImage SourceId.zip pZipA = true := by
  exact ⟨by decide, by decide⟩

/-- C5 (amended): can_load_path is not total on unreadable files: after
their extension gates pass, ZipSource, GlbSource (for .glb) and
ImageSource propagate a file-open failure as an error rather than
returning false; the registry only recovers this by treating the error as
"cannot load" via unwrap_or(false) (FbxSource never opens the file). -/
theorem c5_canload_error_amended (env : Env) (p : Path) (hopen : env.fs p = none) :
    (lowerExtIs p "zip" = true → zipCanLoadPath env p = .error "failed to open file") ∧
    (p.ext = some "glb" → glbCanLoadPath env p = .error "failed to open file") ∧
    imageCanLoadPath env p = .error "failed to open file" ∧
    canLoadPathB env .zip p = false ∧
    (p.ext = some "glb" → canLoadPathB env .glb p = false) ∧
    canLoadPathB env .image p = false := by
  have hglb : p.ext = some "glb" → lowerExtIs p "glb" = true := by
    intro hg
    simp only [lowerExtIs, hg]
    decide
  refine ⟨?_, ?_, ?_, ?_, ?_, ?_⟩
  · intro hz
    simp [zipCanLoadPath, hz, hopen]
  · intro hg
    simp [glbCanLoadPath, hglb hg, hg, hopen]
  · simp [imageCanLoadPath, hopen]
  · cases hz : lowerExtIs p "zip" <;>
      simp [canLoadPathB, canLoadPathE, zipCanLoadPath, hz, hopen]
  · intro hg
    simp [canLoadPathB, canLoadPathE, glbCanLoadPath, hglb hg, hg, hopen]
  · simp [canLoadPathB, canLoadPathE, imageCanLoadPath, hopen]

/-- C5 (witness): a .zip path whose file cannot be opened — the source
errors, and the registry-side boolean treats it as cannot-load. -/
theorem c5_canload_error_amended_witness :
    zipCanLoadPath envBase pZipA = .error "failed to open file" ∧
    canLoadPathB envBase SourceId.zip pZipA = false ∧
    canLoadPathB envBase SourceId.image pZipA = false := by
  have h := c5_canload_error_amended envBase pZipA rfl
  exact ⟨h.1 (by decide), h.2.2.2.1, h.2.2.2.2.2⟩

/-- C5 (counterexample): ZipSource::can_load_path on a .zip path that
cannot be opened returns an error, not the boolean false the claim
requires. -/
theorem c5_canload_error_cex :
    imageCanLoadPath envBase pImgA = .error "failed to open file" ∧
    zipCanLoadPath envBase pZipA = .error "failed to open file" := by
  exact ⟨rfl, rfl⟩

/-- C6 (amended): ImageSource::can_load_reader applies exactly the
acceptance test of can_load_path to the stream contents; GlbSource agrees
with its path test for .glb files (the same 4-byte glTF magic check);
ZipSource's reader test accepts exactly streams beginning with one of the
two PK magics (a weaker check than the path test's full archive parse);
and FbxSource::can_load_reader unconditionally returns false, so FBX
content is never recognized from a reader. -/
theorem c6_reader_path_agreement_amended (env : Env) (p : Path) (b : Bytes)
    (himg : env.fs p = some b) (hglb : p.ext = some "glb") (hlen : 4 ≤ b.length) :
    imageCanLoadPath env p = imageCanLoadReader env b ∧
    glbCanLoadPath env p = glbCanLoadReader b ∧
    zipCanLoadReader b = .ok (b.take 4 == pkLocal || b.take 4 == pkEnd) ∧
    fbxCanLoadReader b = .ok false := by
  have hl : lowerExtIs p "glb" = true := by
    simp only [lowerExtIs, hglb]
    decide
  refine ⟨?_, ?_, ?_, rfl⟩
  · simp [imageCanLoadPath, imageCanLoadReader, himg]
  · simp [glbCanLoadPath, glbCanLoadReader, hl, hglb, himg]
  · unfold zipCanLoadReader readExact
    rw [if_neg (by omega)]

/-- C6 (witness): a readable .glb file whose bytes carry the glTF magic —
the reader/path agreements hold on it concretely. -/
theorem c6_reader_path_agreement_amended_witness :
    imageCanLoadPath envGlbFile pGlbB = imageCanLoadReader envGlbFile glbHeadBytes ∧
    glbCanLoadPath envGlbFile pGlbB = glbCanLoadReader glbHeadBytes ∧
    zipCanLoadReader glbHeadBytes =
      .ok (glbHeadBytes.take 4 == pkLocal || glbHeadBytes.take 4 == pkEnd) ∧
    fbxCanLoadReader glbHeadBytes = .ok false :=
  c6_reader_path_agreement_amended envGlbFile pGlbB glbHeadBytes rfl rfl (by decide)

/-- C6 (counterexample): FbxSource accepts any .fbx path (its acceptance
ignores the content entirely), yet its can_load_reader rejects every
stream — including the content of an accepted FBX file — so the reader
test is not the path test applied to the stream. -/
theorem c6_reader_path_agreement_cex :
    fbxCanLoadPath pFbxA = .ok true ∧ fbxCanLoadReader [0x4B] = .ok false := by
  exact ⟨rfl, rfl⟩

/-- The source translation's 32-bit read is the spec-side 4-byte
little-endian field read. -/
theorem le32_eq_leN (s : Bytes) (i : Nat) : le32 s i = leN 4 s i := by
  have h : leN 4 s i =
      s.getD i 0 + 256 * (s.getD (i + 1) 0 + 256 * (s.getD (i + 2) 0 +
        256 * (s.getD (i + 3) 0 + 256 * 0))) := rfl
  rw [h]
  unfold le32
  ring

/-- The source translation's 64-bit read is the spec-side 8-byte
little-endian field read. -/
theorem le64_eq_leN (s : Bytes) (i : Nat) : le64 s i = leN 8 s i := by
  have h : leN 8 s i =
      s.getD i 0 + 256 * (s.getD (i + 1) 0 + 256 * (s.getD (i + 2) 0 +
        256 * (s.getD (i + 3) 0 + 256 * (s.getD (i + 4) 0 + 256 * (s.getD (i + 5) 0 +
        256 * (s.getD (i + 6) 0 + 256 * (s.getD (i + 7) 0 + 256 * 0))))))) := rfl
  rw [h]
  unfold le64 le32
  ring

/-- C7: the FBX node-header read is determined solely by the file version:
below 7500 the header is 13 bytes (three 4-byte little-endian fields), at
or above 7500 it is 25 bytes (three 8-byte little-endian fields); in both
layouts the name length is the final single byte of the header; and a
header whose end-offset and name length are both zero is treated as the
null/end marker (read_fbx_node returns no node and consumes exactly the
header). -/
theorem c7_fbx_node_header (version fileSize pos : Nat) (s : Bytes) :
    fbxHeaderWidth version = specFbxHeaderWidth version ∧
    readFbxHeaderFields version s pos = specFbxHeaderFields version s pos ∧
    (readFbxHeaderFields version s pos).nameLen = s.getD (pos + (fbxHeaderWidth version - 1)) 0 ∧
    (pos + fbxHeaderWidth version ≤ s.length →
      (readFbxHeaderFields version s pos).endOffset = 0 →
      (readFbxHeaderFields version s pos).nameLen = 0 →
      readFbxNode version fileSize s pos = .ok (none, pos + fbxHeaderWidth version)) := by
  refine ⟨?_, ?_, ?_, ?_⟩
  · by_cases hv : 7500 ≤ version <;>
      simp [fbxHeaderWidth, specFbxHeaderWidth, specFieldWidth, hv, Nat.not_le, Nat.lt_of_not_le,
        Nat.not_lt_of_le]
  · rcases Nat.lt_or_ge version 7500 with hv | hv
    · simp [readFbxHeaderFields, specFbxHeaderFields, specFieldWidth, hv, Nat.not_le.mpr hv,
        le32_eq_leN]
    · simp [readFbxHeaderFields, specFbxHeaderFields, specFieldWidth, hv, Nat.not_lt.mpr hv,
        le64_eq_leN]
  · by_cases hv : 7500 ≤ version <;>
      simp [readFbxHeaderFields, fbxHeaderWidth, hv]
  · intro hlen h0 hn
    unfold readFbxNode
    rw [if_neg (by omega), if_pos ⟨h0, hn⟩]

/-- C7 (witness): a 13-byte all-zero buffer is the null marker for version
7400, a 25-byte all-zero buffer is the null marker for version 7500. -/
theorem c7_fbx_node_header_witness :
    readFbxNode 7400 13 (List.replicate 13 0) 0 = .ok (none, 13) ∧
    readFbxNode 7500 25 (List.replicate 25 0) 0 = .ok (none, 25) :=
  ⟨(c7_fbx_node_header 7400 13 0 (List.replicate 13 0)).2.2.2 (by decide) (by decide) (by decide),
   (c7_fbx_node_header 7500 25 0 (List.replicate 25 0)).2.2.2 (by decide) (by decide) (by decide)⟩

/-- C9: CompressedFormat::parse never lets a panic escape — for every
behavior of the underlying block decoders (including a panic) the result
is an ordinary ok/error value; and when the block decoder panics on an
input that reaches it (valid dimensions, compressed format), parse
returns the decode-error produced at the catch_unwind boundary. -/
theorem c9_panic_boundary (decoder : ImgType → Bytes → Nat → Nat → PanicResult (List Nat × String))
    (d : LoadedImageData) :
    compressedParse decoder d ≠ PanicResult.panicked ∧
    (decoder d.format d.data d.width d.height = .panicked →
      (d.width = 0 || d.height = 0 || 16384 < d.width || 16384 < d.height) = false →
      compressedCanParse d = true →
      compressedParse decoder d = .err "Compressed texture decoder panicked") := by
  constructor
  · unfold compressedParse
    cases h : decompressTexture decoder d <;> simp
  · intro hp hdim hfmt
    simp [compressedParse, decompressTexture, hdim, hfmt, hp]

/-- C9 (witness): a decoder that panics on a well-formed 4x4 BC-compressed
input is caught and converted to a decode error; parse does not panic. -/
theorem c9_panic_boundary_witness :
    compressedParse (fun _ _ _ _ => PanicResult.panicked)
        { name := "t", data := [], fileSize := 0, sourceFile := pImgA, format := .dds,
          width := 4, height := 4 } = .err "Compressed texture decoder panicked" ∧
    compressedParse (fun _ _ _ _ => PanicResult.panicked)
        { name := "t", data := [], fileSize := 0, sourceFile := pImgA, format := .dds,
          width := 4, height := 4 } ≠ PanicResult.panicked :=
  ⟨(c9_panic_boundary (fun _ _ _ _ => PanicResult.panicked)
      { name := "t", data := [], fileSize := 0, sourceFile := pImgA, format := .dds,
        width := 4, height := 4 }).2 rfl (by decide) rfl,
   (c9_panic_boundary (fun _ _ _ _ => PanicResult.panicked)
      { name := "t", data := [], fileSize := 0, sourceFile := pImgA, format := .dds,
        width := 4, height := 4 }).1⟩

/-- C10: ZipSource::load_bytes on a ZipHint returns bytes only when the
archive entry at the hinted index carries exactly the hinted name (the
returned bytes are then that entry's data), and returns a name-mismatch
error whenever the entry at that index has a different name. -/
theorem c10_zip_entry_name_check (env : Env) (cp : Path) (nm : String) (i cs us : Nat)
    (hb : Option Bytes) (b : Bytes) (archive : List ZipEntry)
    (hfs : env.fs cp = some b) (hzip : env.zipParse b = some archive) :
    (∀ d, zipLoadBytes env (.zip cp nm i cs us hb) = .ok d →
      ∃ e, archive.get? i = some e ∧ e.entryName = nm ∧ d = e.data) ∧
    (∀ e, archive.get? i = some e → e.entryName ≠ nm →
      zipLoadBytes env (.zip cp nm i cs us hb) = .error "ZIP entry name mismatch") := by
  constructor
  · intro d hd
    cases hg : archive.get? i with
    | none =>
      simp only [zipLoadBytes, readZipEntry, hfs, hzip, hg] at hd
      exact Except.noConfusion hd
    | some e =>
      simp only [zipLoadBytes, readZipEntry, hfs, hzip, hg] at hd
      by_cases hne : e.entryName = nm
      · rw [if_neg (not_not_intro hne)] at hd
        injection hd with h
        exact ⟨e, rfl, hne, h.symm⟩
      · rw [if_pos hne] at hd
        exact Except.noConfusion hd
  · intro e hg hne
    simp only [zipLoadBytes, readZipEntry, hfs, hzip, hg]
    rw [if_pos hne]

/-- C10 (witness): a concrete one-entry archive — the reordered/renamed
hint gets the name-mismatch error; the correct hint gets the entry data. -/
theorem c10_zip_entry_name_check_witness :
    zipLoadBytes envZipW (.zip pZipW "zzz" 0 3 2 none) = .error "ZIP entry name mismatch" ∧
    zipLoadBytes envZipW (.zip pZipW "x.png" 0 3 2 none) = .ok [1, 2] :=
  ⟨(c10_zip_entry_name_check envZipW pZipW "zzz" 0 3 2 none [5] [zipEntX]
      (by decide) (by decide)).2 zipEntX rfl (by decide),
   rfl⟩

/-- A computation whose isOk flag is set is an ok value. -/
theorem except_ok_of_isOk {α : Type} {x : Except String α} (h : x.isOk = true) :
    ∃ a, x = .ok a := by
  cases x with
  | ok a => exact ⟨a, rfl⟩
  | error e => exact Bool.noConfusion h

/-- Boolean contains is false exactly on non-members. -/
theorem contains_false_iff (l : List Nat) (a : Nat) : l.contains a = false ↔ a ∉ l := by
  constructor
  · intro h hmem
    have hc : l.contains a = true := List.elem_iff.mpr hmem
    rw [h] at hc
    exact Bool.noConfusion hc
  · intro h
    cases hc : l.contains a
    · rfl
    · exact absurd (List.elem_iff.mp hc) h

/-- One material slot preserves the material-walk invariant. -/
theorem glbSlot_inv (extract : String → Nat → Except String Meta) (n : Nat)
    (hub : ∀ lbl i m, extract lbl i = .ok m → i < n)
    (lbl : String) (idxOpt : Option Nat) (st : GlbAcc) (h : GlbInv n st) :
    GlbInv n (glbSlot extract lbl idxOpt st) := by
  obtain ⟨h1, h2, h3⟩ := h
  cases idxOpt with
  | none => exact ⟨h1, h2, h3⟩
  | some i =>
    simp only [glbSlot]
    by_cases hc : st.processed.contains i = true
    · simp only [hc, if_true]
      exact ⟨h1, h2, h3⟩
    · have hc' : st.processed.contains i = false := Bool.not_eq_true _ |>.mp hc
      have hni : i ∉ st.processed := (contains_false_iff _ _).mp hc'
      simp only [hc', Bool.false_eq_true, if_false]
      cases hx : extract lbl i with
      | error e => exact ⟨h1, h2, h3⟩
      | ok m =>
        refine ⟨?_, ?_, ?_⟩
        · simp [h1]
        · refine h2.append (List.nodup_singleton i) ?_
          intro a ha hb
          rw [List.mem_singleton] at hb
          subst hb
          exact hni ha
        · intro j hj
          rcases List.mem_append.mp hj with hj | hj
          · exact h3 j hj
          · rw [List.mem_singleton] at hj
            subst hj
            exact hub lbl j m hx

/-- The five slots of one material preserve the invariant. -/
theorem glbMaterialStep_inv (extract : String → Nat → Except String Meta) (n : Nat)
    (hub : ∀ lbl i m, extract lbl i = .ok m → i < n)
    (idx : Nat) (m : GlbMaterial) (st : GlbAcc) (h : GlbInv n st) :
    GlbInv n (glbMaterialStep extract idx m st) :=
  glbSlot_inv extract n hub _ _ _
    (glbSlot_inv extract n hub _ _ _
      (glbSlot_inv extract n hub _ _ _
        (glbSlot_inv extract n hub _ _ _
          (glbSlot_inv extract n hub _ _ _ h))))

/-- The whole material walk preserves the invariant. -/
theorem glbMaterialsFrom_inv (extract : String → Nat → Except String Meta) (n : Nat)
    (hub : ∀ lbl i m, extract lbl i = .ok m → i < n) :
    ∀ (ms : List GlbMaterial) (k : Nat) (st : GlbAcc), GlbInv n st →
      GlbInv n (glbMaterialsFrom extract k ms st) := by
  intro ms
  induction ms with
  | nil => intro k st h; exact h
  | cons m rest ih =>
    intro k st h
    exact ih (k + 1) _ (glbMaterialStep_inv extract n hub k m st h)

/-- The standalone pass emits exactly the unprocessed valid texture
indices, in index order, provided extraction succeeds on the range it
visits. -/
theorem glbStandaloneFrom_map_fst (extract : String → Nat → Except String Meta)
    (processed : List Nat) :
    ∀ (ts : List GlbTexture) (k : Nat),
      (∀ lbl i, k ≤ i → i < k + ts.length → (extract lbl i).isOk = true) →
      (glbStandaloneFrom extract processed k ts).map Prod.fst
        = (List.range' k ts.length).filter (fun j => !processed.contains j) := by
  intro ts
  induction ts with
  | nil => intro k h; rfl
  | cons t rest ih =>
    intro k h
    simp only [glbStandaloneFrom, List.length_cons, List.range'_succ, List.filter_cons]
    by_cases hc : processed.contains k = true
    · simp only [hc, if_true, Bool.not_true]
      rw [if_neg (by simp)]
      exact ih (k + 1) fun lbl i hk hlt => h lbl i (Nat.le_of_succ_le hk)
        (by simp only [List.length_cons]; omega)
    · have hc' : processed.contains k = false := Bool.not_eq_true _ |>.mp hc
      obtain ⟨m, hm⟩ := except_ok_of_isOk (h (texLabel t k) k (Nat.le_refl k)
        (by simp only [List.length_cons]; omega))
      simp only [hc', Bool.false_eq_true, if_false, hm, Bool.not_false]
      rw [if_pos trivial]
      simp only [List.map_cons]
      rw [ih (k + 1) fun lbl i hk hlt => h lbl i (Nat.le_of_succ_le hk)
        (by simp only [List.length_cons]; omega)]

/-- A successful per-texture extraction implies the index is valid. -/
theorem glbExtractTex_ok_lt (env : Env) (doc : GlbDoc) (buffers : List Bytes) (basePath : Path)
    (blobOff : Nat) (lbl : String) (i : Nat) (m : Meta)
    (hx : glbExtractTex env doc buffers basePath blobOff lbl i = .ok m) :
    i < doc.textures.length := by
  unfold glbExtractTex at hx
  cases hg : doc.textures.get? i with
  | none =>
    simp only [hg] at hx
    exact Except.noConfusion hx
  | some tex =>
    obtain ⟨hlt, _⟩ := List.get?_eq_some.mp hg
    exact hlt

/-- C8: for a GLB/glTF document on which every texture's metadata
extraction succeeds and which has at least one texture,
GlbSource::extract_metadata succeeds and emits exactly one record per
texture index: the texture indices tagging the collected records contain
no duplicate (a texture referenced by several material slots is emitted
once) and cover precisely the valid texture indices (each referenced
index once from the material walk plus each unreferenced texture once
from the standalone pass). -/
theorem c8_glb_one_record_per_texture (env : Env) (p : Path) (b : Bytes) (doc : GlbDoc)
    (off : Nat) (hfs : env.fs p = some b) (hparse : env.glbParse b = some doc)
    (hoff : glbBlobOffset p b = .ok off)
    (hok : ∀ lbl i, i < doc.textures.length →
      (glbExtractTex env doc doc.buffers p off lbl i).isOk = true)
    (hne : doc.textures ≠ []) :
    glbExtractMetadata env p =
      .ok ((glbCollect (glbExtractTex env doc doc.buffers p off) doc).map Prod.snd) ∧
    ((glbCollect (glbExtractTex env doc doc.buffers p off) doc).map Prod.fst).Nodup ∧
    ∀ i, i ∈ (glbCollect (glbExtractTex env doc doc.buffers p off) doc).map Prod.fst ↔
      i < doc.textures.length := by
  have hub : ∀ lbl i m, glbExtractTex env doc doc.buffers p off lbl i = .ok m →
      i < doc.textures.length := fun lbl i m hx => glbExtractTex_ok_lt env doc _ p off lbl i m hx
  obtain ⟨h1, h2, h3⟩ := glbMaterialsFrom_inv (glbExtractTex env doc doc.buffers p off)
    doc.textures.length hub doc.materials 0 ⟨[], []⟩ ⟨rfl, List.nodup_nil, by intro j hj; cases hj⟩
  have hstand := glbStandaloneFrom_map_fst (glbExtractTex env doc doc.buffers p off)
    (glbMaterialsFrom (glbExtractTex env doc doc.buffers p off) 0 doc.materials ⟨[], []⟩).processed
    doc.textures 0 (fun lbl i _ hlt => hok lbl i (by omega))
  have hfst : (glbCollect (glbExtractTex env doc doc.buffers p off) doc).map Prod.fst
      = (glbMaterialsFrom (glbExtractTex env doc doc.buffers p off) 0 doc.materials
          ⟨[], []⟩).processed
        ++ (List.range' 0 doc.textures.length).filter
            (fun j => !(glbMaterialsFrom (glbExtractTex env doc doc.buffers p off) 0 doc.materials
              ⟨[], []⟩).processed.contains j) := by
    simp only [glbCollect, List.map_append, h1, hstand]
  have hmem : ∀ i, i ∈ (glbCollect (glbExtractTex env doc doc.buffers p off) doc).map Prod.fst ↔
      i < doc.textures.length := by
    intro i
    rw [hfst, List.mem_append]
    constructor
    · rintro (hm | hm)
      · exact h3 i hm
      · have := (List.mem_filter.mp hm).1
        have := List.mem_range'_1.mp this
        omega
    · intro hi
      by_cases hmem : i ∈ (glbMaterialsFrom (glbExtractTex env doc doc.buffers p off) 0
          doc.materials ⟨[], []⟩).processed
      · exact Or.inl hmem
      · refine Or.inr (List.mem_filter.mpr ⟨List.mem_range'_1.mpr ⟨Nat.zero_le i, by omega⟩, ?_⟩)
        rw [(contains_false_iff _ _).mpr hmem]
        rfl
  have hnodup : ((glbCollect (glbExtractTex env doc doc.buffers p off) doc).map Prod.fst).Nodup := by
    rw [hfst]
    refine h2.append ((List.nodup_range' 0 doc.textures.length).filter _) ?_
    intro a ha hb
    have := (List.mem_filter.mp hb).2
    rw [Bool.not_eq_true'] at this
    exact (contains_false_iff _ _).mp this ha
  refine ⟨?_, hnodup, hmem⟩
  have hpos : 0 < doc.textures.length := List.length_pos.mpr hne
  have h0 : 0 ∈ (glbCollect (glbExtractTex env doc doc.buffers p off) doc).map Prod.fst :=
    (hmem 0).mpr hpos
  simp only [glbExtractMetadata, hfs, hparse, hoff]
  cases hp : glbCollect (glbExtractTex env doc doc.buffers p off) doc with
  | nil => rw [hp] at h0; cases h0
  | cons a l =>
    simp [hp]

/-- C8 (witness): the concrete document with texture 0 referenced by two
material slots and texture 1 unreferenced — extraction succeeds, the
collected index tags are duplicate-free, index 0 and 1 are covered and
index 5 is not. -/
theorem c8_glb_one_record_per_texture_witness :
    glbExtractMetadata envC8 pC8 =
      .ok ((glbCollect (glbExtractTex envC8 docC8 docC8.buffers pC8 0) docC8).map Prod.snd) ∧
    ((glbCollect (glbExtractTex envC8 docC8 docC8.buffers pC8 0) docC8).map Prod.fst).Nodup ∧
    (0 ∈ (glbCollect (glbExtractTex envC8 docC8 docC8.buffers pC8 0) docC8).map Prod.fst ↔
      0 < docC8.textures.length) ∧
    (5 ∈ (glbCollect (glbExtractTex envC8 docC8 docC8.buffers pC8 0) docC8).map Prod.fst ↔
      5 < docC8.textures.length) := by
  have h := c8_glb_one_record_per_texture envC8 pC8 [3] docC8 0 (by decide) (by decide) rfl
    (by
      intro lbl i hi
      match i, hi with
      | 0, _ => rfl
      | 1, _ => rfl)
    (by decide)
  exact ⟨h.1, h.2.1, h.2.2 0, h.2.2 5⟩

/-- Records created by the ZIP per-entry closure carry zero dimensions. -/
theorem zipProcessEntry_dims (env : Env) (p : Path) (i : Nat) (e : ZipEntry) (m : Meta)
    (h : zipProcessEntry env p i e = some m) : m.width = 0 ∧ m.height = 0 := by
  by_cases hd : e.isDir = true
  · simp [zipProcessEntry, hd] at h
  · by_cases hz : e.uncompressedSize = 0
    · simp [zipProcessEntry, hd, hz] at h
    · simp [zipProcessEntry, hd, hz] at h
      subst h
      exact ⟨rfl, rfl⟩

/-- ZipSource::extract_metadata emits only zero-dimension records. -/
theorem zipExtractMetadata_dims (env : Env) (p : Path) (l : List Meta)
    (h : zipExtractMetadata env p = .ok l) : ∀ m ∈ l, m.width = 0 ∧ m.height = 0 := by
  unfold zipExtractMetadata at h
  split at h
  · exact Except.noConfusion h
  · split at h
    · exact Except.noConfusion h
    · dsimp only at h
      split at h
      · exact Except.noConfusion h
      · injection h with h
        subst h
        intro m hm
        obtain ⟨ie, _, hie⟩ := List.mem_filterMap.mp hm
        exact zipProcessEntry_dims env p ie.1 ie.2 m hie

/-- ImageSource::extract_metadata emits only positive-dimension records. -/
theorem imageExtractMetadata_dims (env : Env) (p : Path) (l : List Meta)
    (h : imageExtractMetadata env p = .ok l) : ∀ m ∈ l, 0 < m.width ∧ 0 < m.height := by
  unfold imageExtractMetadata at h
  split at h
  · exact Except.noConfusion h
  · split at h
    · exact Except.noConfusion h
    · split at h
      · exact Except.noConfusion h
      · rename_i w h'
        split at h
        · exact Except.noConfusion h
        · rename_i hcond
          injection h with h
          subst h
          intro m hm
          rw [List.mem_singleton] at hm
          subst hm
          simp only [Bool.or_eq_true, decide_eq_true_eq, not_or] at hcond
          exact ⟨Nat.pos_of_ne_zero hcond.1, Nat.pos_of_ne_zero hcond.2⟩

/-- ImageSource::extract_metadata_from_reader emits only
positive-dimension records. -/
theorem imageExtractFromReader_dims (env : Env) (b : Bytes) (en : String) (pp : Path)
    (l : List Meta) (h : imageExtractFromReader env b en pp = .ok l) :
    ∀ m ∈ l, 0 < m.width ∧ 0 < m.height := by
  unfold imageExtractFromReader at h
  split at h
  · exact Except.noConfusion h
  · split at h
    · exact Except.noConfusion h
    · split at h
      · exact Except.noConfusion h
      · rename_i hcond
        injection h with h
        subst h
        intro m hm
        rw [List.mem_singleton] at hm
        subst hm
        simp only [Bool.or_eq_true, decide_eq_true_eq, not_or] at hcond
        exact ⟨Nat.pos_of_ne_zero hcond.1, Nat.pos_of_ne_zero hcond.2⟩

/-- GlbSource's per-texture extraction emits only positive-dimension
records. -/
theorem glbExtractTex_dims (env : Env) (doc : GlbDoc) (buffers : List Bytes) (basePath : Path)
    (blobOff : Nat) (lbl : String) (i : Nat) (m : Meta)
    (h : glbExtractTex env doc buffers basePath blobOff lbl i = .ok m) :
    0 < m.width ∧ 0 < m.height := by
  unfold glbExtractTex at h
  split at h
  · exact Except.noConfusion h
  · split at h
    · split at h
      · exact Except.noConfusion h
      · dsimp only at h
        split at h
        · exact Except.noConfusion h
        · split at h
          · exact Except.noConfusion h
          · split at h
            · exact Except.noConfusion h
            · rename_i hcond
              injection h with h
              subst h
              simp only [Bool.or_eq_true, decide_eq_true_eq, not_or] at hcond
              exact ⟨Nat.pos_of_ne_zero hcond.1, Nat.pos_of_ne_zero hcond.2⟩
    · split at h
      · exact Except.noConfusion h
      · split at h
        · exact Except.noConfusion h
        · split at h
          · exact Except.noConfusion h
          · split at h
            · exact Except.noConfusion h
            · rename_i hcond
              injection h with h
              subst h
              simp only [Bool.or_eq_true, decide_eq_true_eq, not_or] at hcond
              exact ⟨Nat.pos_of_ne_zero hcond.1, Nat.pos_of_ne_zero hcond.2⟩

/-- The reader-based GLB per-texture extraction emits only
positive-dimension records. -/
theorem glbExtractTexReader_dims (env : Env) (doc : GlbDoc) (buffers : List Bytes)
    (parentPath : Path) (cn lbl : String) (i : Nat) (m : Meta)
    (h : glbExtractTexReader env doc buffers parentPath cn lbl i = .ok m) :
    0 < m.width ∧ 0 < m.height := by
  unfold glbExtractTexReader at h
  split at h
  · exact Except.noConfusion h
  · split at h
    · split at h
      · exact Except.noConfusion h
      · dsimp only at h
        split at h
        · exact Except.noConfusion h
        · split at h
          · exact Except.noConfusion h
          · split at h
            · exact Except.noConfusion h
            · rename_i hcond
              injection h with h
              subst h
              simp only [Bool.or_eq_true, decide_eq_true_eq, not_or] at hcond
              exact ⟨Nat.pos_of_ne_zero hcond.1, Nat.pos_of_ne_zero hcond.2⟩
    · exact Except.noConfusion h

/-- FbxSource's per-texture conversion emits only positive-dimension
records. -/
theorem fbxConvertTexture_dims (env : Env) (td : TextureData) (i : Nat) (basePath : Path)
    (m : Meta) (h : fbxConvertTexture env td i basePath = .ok m) :
    0 < m.width ∧ 0 < m.height := by
  unfold fbxConvertTexture at h
  split at h
  · exact Except.noConfusion h
  · split at h
    · exact Except.noConfusion h
    · split at h
      · exact Except.noConfusion h
      · split at h
        · exact Except.noConfusion h
        · rename_i hcond
          injection h with h
          subst h
          simp only [Bool.or_eq_true, decide_eq_true_eq, not_or] at hcond
          exact ⟨Nat.pos_of_ne_zero hcond.1, Nat.pos_of_ne_zero hcond.2⟩

/-- Members of a successfully collected result list come from ok inputs. -/
theorem collectResults_mem {α : Type} (xs : List (Except String α)) (l : List α)
    (h : collectResults xs = .ok l) : ∀ a ∈ l, ∃ x ∈ xs, x = .ok a := by
  induction xs generalizing l with
  | nil =>
    injection h with h
    subst h
    intro a ha
    cases ha
  | cons x rest ih =>
    cases x with
    | error e => exact Except.noConfusion h
    | ok v =>
      simp only [collectResults] at h
      cases hr : collectResults rest with
      | error e => rw [hr] at h; exact Except.noConfusion h
      | ok l' =>
        rw [hr] at h
        injection h with h
        subst h
        intro a ha
        rcases List.mem_cons.mp ha with ha | ha
        · exact ⟨.ok v, List.mem_cons_self _ _, by rw [ha]⟩
        · obtain ⟨x, hx, hxa⟩ := ih l' hr a ha
          exact ⟨x, List.mem_cons_of_mem _ hx, hxa⟩

/-- ensure_unique_names only changes names: every output record has the
dimensions of some input record. -/
theorem renameLoop_dims (ms : List Meta) :
    ∀ (counters : List (String × Nat)) (m : Meta), m ∈ renameLoop counters ms →
      ∃ m' ∈ ms, m.width = m'.width ∧ m.height = m'.height := by
  induction ms with
  | nil => intro counters m hm; cases hm
  | cons m0 rest ih =>
    intro counters m hm
    simp only [renameLoop] at hm
    cases hl : counters.lookup m0.name with
    | some c =>
      rw [hl] at hm
      rcases List.mem_cons.mp hm with hm | hm
      · exact ⟨m0, List.mem_cons_self _ _, by subst hm; exact ⟨rfl, rfl⟩⟩
      · obtain ⟨m', hm', hd⟩ := ih _ m hm
        exact ⟨m', List.mem_cons_of_mem _ hm', hd⟩
    | none =>
      rw [hl] at hm
      rcases List.mem_cons.mp hm with hm | hm
      · exact ⟨m0, List.mem_cons_self _ _, by subst hm; exact ⟨rfl, rfl⟩⟩
      · obtain ⟨m', hm', hd⟩ := ih _ m hm
        exact ⟨m', List.mem_cons_of_mem _ hm', hd⟩

/-- FbxSource::extract_metadata emits only positive-dimension records. -/
theorem fbxExtractMetadata_dims (env : Env) (p : Path) (l : List Meta)
    (h : fbxExtractMetadata env p = .ok l) : ∀ m ∈ l, 0 < m.width ∧ 0 < m.height := by
  unfold fbxExtractMetadata at h
  split at h
  · exact Except.noConfusion h
  · split at h
    · exact Except.noConfusion h
    · split at h
      · exact Except.noConfusion h
      · rename_i results hres
        injection h with h
        subst h
        intro m hm
        obtain ⟨m', hm', hw, hh⟩ := renameLoop_dims results [] m hm
        obtain ⟨x, hx, hxa⟩ := collectResults_mem _ _ hres m' hm'
        obtain ⟨it, _, hit⟩ := List.mem_filterMap.mp hx
        rw [hw, hh]
        by_cases hc : it.2.content.isSome = true
        · rw [if_pos hc] at hit
          injection hit with hit
          exact fbxConvertTexture_dims env it.2 it.1 p m' (hit.trans hxa)
        · rw [if_neg hc] at hit
          exact Option.noConfusion hit

/-- A per-record property guaranteed by the extraction function is
preserved by one material slot. -/
theorem glbSlot_recs_pred (extract : String → Nat → Except String Meta) (P : Meta → Prop)
    (hP : ∀ lbl i m, extract lbl i = .ok m → P m) (lbl : String) (idxOpt : Option Nat)
    (st : GlbAcc) (h : ∀ im ∈ st.recs, P im.2) :
    ∀ im ∈ (glbSlot extract lbl idxOpt st).recs, P im.2 := by
  cases idxOpt with
  | none => exact h
  | some i =>
    simp only [glbSlot]
    by_cases hc : st.processed.contains i = true
    · simp only [hc, if_true]
      exact h
    · have hc' : st.processed.contains i = false := Bool.not_eq_true _ |>.mp hc
      simp only [hc', Bool.false_eq_true, if_false]
      cases hx : extract lbl i with
      | error e => exact h
      | ok m =>
        intro im him
        rcases List.mem_append.mp him with him | him
        · exact h im him
        · rw [List.mem_singleton] at him
          subst him
          exact hP lbl i m hx

/-- The property is preserved by the five slots of one material. -/
theorem glbMaterialStep_recs_pred (extract : String → Nat → Except String Meta) (P : Meta → Prop)
    (hP : ∀ lbl i m, extract lbl i = .ok m → P m) (idx : Nat) (mt : GlbMaterial) (st : GlbAcc)
    (h : ∀ im ∈ st.recs, P im.2) :
    ∀ im ∈ (glbMaterialStep extract idx mt st).recs, P im.2 :=
  glbSlot_recs_pred extract P hP _ _ _
    (glbSlot_recs_pred extract P hP _ _ _
      (glbSlot_recs_pred extract P hP _ _ _
        (glbSlot_recs_pred extract P hP _ _ _
          (glbSlot_recs_pred extract P hP _ _ _ h))))

/-- The property is preserved by the whole material walk. -/
theorem glbMaterialsFrom_recs_pred (extract : String → Nat → Except String Meta) (P : Meta → Prop)
    (hP : ∀ lbl i m, extract lbl i = .ok m → P m) :
    ∀ (ms : List GlbMaterial) (k : Nat) (st : GlbAcc), (∀ im ∈ st.recs, P im.2) →
      ∀ im ∈ (glbMaterialsFrom extract k ms st).recs, P im.2 := by
  intro ms
  induction ms with
  | nil => intro k st h; exact h
  | cons mt rest ih =>
    intro k st h
    exact ih (k + 1) _ (glbMaterialStep_recs_pred extract P hP k mt st h)

/-- Every record of the standalone pass satisfies the property. -/
theorem glbStandaloneFrom_recs_pred (extract : String → Nat → Except String Meta)
    (P : Meta → Prop) (hP : ∀ lbl i m, extract lbl i = .ok m → P m) (processed : List Nat) :
    ∀ (ts : List GlbTexture) (k : Nat) im, im ∈ glbStandaloneFrom extract processed k ts →
      P im.2 := by
  intro ts
  induction ts with
  | nil => intro k im him; cases him
  | cons t rest ih =>
    intro k im him
    simp only [glbStandaloneFrom] at him
    by_cases hc : processed.contains k = true
    · rw [if_pos hc] at him
      exact ih (k + 1) im him
    · have hc' : processed.contains k = false := Bool.not_eq_true _ |>.mp hc
      rw [hc'] at him
      simp only [Bool.false_eq_true, if_false] at him
      cases hx : extract (texLabel t k) k with
      | error e =>
        rw [hx] at him
        exact ih (k + 1) im him
      | ok m =>
        rw [hx] at him
        rcases List.mem_cons.mp him with him | him
        · subst him
          exact hP _ k m hx
        · exact ih (k + 1) im him

/-- Every collected pair satisfies the extraction-guaranteed property. -/
theorem glbCollect_recs_pred (extract : String → Nat → Except String Meta) (P : Meta → Prop)
    (hP : ∀ lbl i m, extract lbl i = .ok m → P m) (doc : GlbDoc) :
    ∀ im ∈ glbCollect extract doc, P im.2 := by
  intro im him
  rcases List.mem_append.mp him with him | him
  · exact glbMaterialsFrom_recs_pred extract P hP doc.materials 0 ⟨[], []⟩
      (by intro x hx; cases hx) im him
  · exact glbStandaloneFrom_recs_pred extract P hP _ doc.textures 0 im him

/-- GlbSource::extract_metadata emits only positive-dimension records. -/
theorem glbExtractMetadata_dims (env : Env) (p : Path) (l : List Meta)
    (h : glbExtractMetadata env p = .ok l) : ∀ m ∈ l, 0 < m.width ∧ 0 < m.height := by
  unfold glbExtractMetadata at h
  split at h
  · exact Except.noConfusion h
  · split at h
    · exact Except.noConfusion h
    · split at h
      · exact Except.noConfusion h
      · dsimp only at h
        split at h
        · exact Except.noConfusion h
        · injection h with h
          subst h
          intro m hm
          obtain ⟨im, him, heq⟩ := List.mem_map.mp hm
          rw [← heq]
          exact glbCollect_recs_pred _ (fun mm => 0 < mm.width ∧ 0 < mm.height)
            (fun lbl i mm hx => glbExtractTex_dims env _ _ p _ lbl i mm hx) _ im him

/-- GlbSource::extract_metadata_from_reader emits only positive-dimension
records. -/
theorem glbExtractFromReader_dims (env : Env) (b : Bytes) (en : String) (pp : Path)
    (l : List Meta) (h : glbExtractFromReader env b en pp = .ok l) :
    ∀ m ∈ l, 0 < m.width ∧ 0 < m.height := by
  unfold glbExtractFromReader at h
  split at h
  · exact Except.noConfusion h
  · split at h
    · exact Except.noConfusion h
    · dsimp only at h
      split at h
      · exact Except.noConfusion h
      · injection h with h
        subst h
        intro m hm
        obtain ⟨im, him, heq⟩ := List.mem_map.mp hm
        rw [← heq]
        exact glbMaterialsFrom_recs_pred _ (fun mm => 0 < mm.width ∧ 0 < mm.height)
          (fun lbl i mm hx => glbExtractTexReader_dims env _ _ pp en lbl i mm hx)
          _ 0 ⟨[], []⟩ (by intro x hx; cases hx) im him

/-- Every record a Source's extract_metadata returns is
both-zero-or-both-positive. -/
theorem sourceExtractMetadata_dims (env : Env) (sid : SourceId) (p : Path) (l : List Meta)
    (h : sourceExtractMetadata env sid p = .ok l) : ∀ m ∈ l, bothZeroOrPos m := by
  intro m hm
  cases sid with
  | glb => exact Or.inr (glbExtractMetadata_dims env p l h m hm)
  | fbx => exact Or.inr (fbxExtractMetadata_dims env p l h m hm)
  | zip => exact Or.inl (zipExtractMetadata_dims env p l h m hm)
  | image => exact Or.inr (imageExtractMetadata_dims env p l h m hm)

/-- Every record a Source's extract_metadata_from_reader returns is
both-zero-or-both-positive. -/
theorem sourceExtractFromReader_dims (env : Env) (sid : SourceId) (b : Bytes) (en : String)
    (pp : Path) (l : List Meta) (h : sourceExtractFromReader env sid b en pp = .ok l) :
    ∀ m ∈ l, bothZeroOrPos m := by
  intro m hm
  cases sid with
  | glb => exact Or.inr (glbExtractFromReader_dims env b en pp l h m hm)
  | fbx =>
    injection h with h
    subst h
    cases hm
  | zip =>
    injection h with h
    subst h
    cases hm
  | image => exact Or.inr (imageExtractFromReader_dims env b en pp l h m hm)

/-- Every seeded record is both-zero-or-both-positive. -/
theorem recursiveSeed_dims (env : Env) :
    ∀ (paths : List Path) (m : Meta), m ∈ recursiveSeed env paths → bothZeroOrPos m := by
  intro paths
  induction paths with
  | nil => intro m hm; cases hm
  | cons p rest ih =>
    intro m hm
    simp only [recursiveSeed] at hm
    rcases List.mem_append.mp hm with hm | hm
    · cases hf : findSource env p with
      | none =>
        simp only [hf] at hm
        cases hm
      | some s =>
        simp only [hf] at hm
        cases hx : sourceExtractMetadata env s p with
        | error e =>
          simp only [hx] at hm
          cases hm
        | ok l =>
          simp only [hx] at hm
          exact sourceExtractMetadata_dims env s p l hx m hm
    · exact ih m hm

/-- The queue loop preserves the dimension invariant (under the proviso
that size detection only ever reports positive dimensions). -/
theorem recursiveLoop_dims (env : Env)
    (hsize : ∀ b w h, env.blobSize b = some (w, h) → 0 < w ∧ 0 < h) :
    ∀ (fuel : Nat) (queue acc : List Meta), (∀ m ∈ queue, bothZeroOrPos m) →
      (∀ m ∈ acc, bothZeroOrPos m) →
      ∀ m ∈ recursiveLoop env fuel queue acc, bothZeroOrPos m := by
  intro fuel
  induction fuel with
  | zero => intro queue acc hq ha; exact ha
  | succ fuel ih =>
    intro queue acc hq ha
    cases queue with
    | nil => exact ha
    | cons m rest =>
      have hm : bothZeroOrPos m := hq m (List.mem_cons_self _ _)
      have hrest : ∀ x ∈ rest, bothZeroOrPos x := fun x hx => hq x (List.mem_cons_of_mem _ hx)
      simp only [recursiveLoop]
      split
      · rename_i header hh
        split
        · rename_i fmt hit
          split
          · rename_i w hgt hbs
            refine ih rest (acc ++ [_]) hrest ?_
            intro x hx
            rcases List.mem_append.mp hx with hx | hx
            · exact ha x hx
            · rw [List.mem_singleton] at hx
              subst hx
              exact Or.inr (hsize header w hgt hbs)
          · refine ih rest (acc ++ [_]) hrest ?_
            intro x hx
            rcases List.mem_append.mp hx with hx | hx
            · exact ha x hx
            · rw [List.mem_singleton] at hx
              subst hx
              exact hm
        · split
          · rename_i cSid hcs
            split
            · rename_i pSid hps
              split
              · rename_i containerData hlb
                split
                · rename_i expanded hex
                  refine ih (rest ++ expanded) acc ?_ ha
                  intro x hx
                  rcases List.mem_append.mp hx with hx | hx
                  · exact hrest x hx
                  · exact sourceExtractFromReader_dims env cSid containerData m.name
                      m.sourcePath expanded hex x hx
                · exact ih rest acc hrest ha
              · exact ih rest acc hrest ha
            · exact ih rest acc hrest ha
          · exact ih rest acc hrest ha
      · refine ih rest (acc ++ [m]) hrest ?_
        intro x hx
        rcases List.mem_append.mp hx with hx | hx
        · exact ha x hx
        · rw [List.mem_singleton] at hx
          subst hx
          exact hm

/-- C4 (amended): every metadata record observable from
extract_all_metadata_recursive has width and height both zero or both
positive (assuming size detection reports only positive dimensions) — but
both-zero is not merely transient: a record whose header bytes pass type
detection while size detection fails keeps its zero dimensions and is
still emitted to the final result list. -/
theorem c4_dims_amended (env : Env)
    (hsize : ∀ b w h, env.blobSize b = some (w, h) → 0 < w ∧ 0 < h) :
    ∀ (fuel : Nat) (paths : List Path) (m : Meta),
      m ∈ extractAllMetadataRecursive env fuel paths → bothZeroOrPos m := by
  intro fuel paths m hm
  exact recursiveLoop_dims env hsize fuel (recursiveSeed env paths) []
    (recursiveSeed_dims env paths) (by intro x hx; cases hx) m hm

set_option maxRecDepth 8000 in
/-- C4 (witness): the record emitted to the final list for the corrupt-PNG
ZIP entry satisfies the both-zero-or-both-positive invariant (it is the
both-zero case). -/
theorem c4_dims_amended_witness : bothZeroOrPos metaC4Rec :=
  c4_dims_amended envZipBadPng
    (fun b w h hbs => Option.noConfusion hbs) 4 [pZipC4] metaC4Rec (by decide)

set_option maxRecDepth 8000 in
/-- C4 (counterexample): a ZIP entry of 130 bytes whose header passes
image_type (PNG signature) but fails blob_size is emitted to the final
result list of extract_all_metadata_recursive with width and height still
zero, so not every record in the final result list has positive
dimensions. -/
theorem c4_dims_cex :
    (extractAllMetadataRecursive envZipBadPng 4 [pZipC4]).map (fun m => (m.width, m.height))
      = [(0, 0)] ∧
    (extractAllMetadataRecursive envZipBadPng 4 [pZipC4]).map Meta.format = [ImgType.png] := by
  exact ⟨by decide, by decide⟩

end GTexView
